import Mathlib

/-!
Verification development for the modaltron python game server
(`src/python_server/server`).  The data model and the operations referenced
by the checked claims are embedded shallowly:

* machine floats are modelled by `ℚ` (every python float is a rational);
  the transcendental library calls `math.cos`, `math.sin`, `math.log` and
  the float power `2 ** x` are abstracted as explicit function parameters
  (`cosF`, `sinF`, `logF`, `pow2F`) of the operations that invoke them,
  with the arithmetic facts a theorem needs about them (`logF 1 = 0`,
  `pow2F 0 = 1`, ...) taken as hypotheses;
* the random number generator and the collision geometry of the spatial
  index are abstracted as oracle parameters (`u`, `borderO`, `killerO`,
  `touch`, ...): each theorem quantifies over every behaviour of these
  oracles;
* `Collection` (a list with id-based dedup) is modelled by plain lists
  with explicit id-deduplicating insertion.
-/

namespace Modaltron

/-! ## Values carried by bonus effects (`BonusStack` property dictionary)

Python bonus effects carry heterogeneous values (numbers, booleans,
colour strings).  `BVal` is their sum type.  Python treats `bool` as an
integer in arithmetic, which `bvalNum` reflects. -/

/-- A value stored in a bonus-stack property dictionary: a number, a boolean
or a colour string (python effect values are heterogeneous). -/
inductive BVal where
  | num (v : ℚ)
  | bool (b : Bool)
  | str (s : String)
  deriving DecidableEq, Repr

/-- Numeric reading of a `BVal`, following python arithmetic where `bool`
is an `int` subtype (`False = 0`, `True = 1`).  Strings never reach a
numeric position in this codebase; that branch returns `0`. -/
def bvalNum : BVal → ℚ
  | .num v => v
  | .bool b => if b then 1 else 0
  | .str _ => 0

/-- String reading of a `BVal`; only colour values are read as strings. -/
def bvalStr : BVal → String
  | .str s => s
  | _ => ""

/-- Python truthiness of a `BVal` (`bool(value)`). -/
def bvalTruthy : BVal → Bool
  | .num v => v ≠ 0
  | .bool b => b
  | .str s => s ≠ ""

/-! ## Avatar state (`shared/model/BaseAvatar` + `server/model/Avatar`)

The two fields `attrDirectionInLoop` and `attrAngularVelocityBase` model a
python port artefact: `BaseBonusStack.apply` runs
`setattr(target, 'directionInLoop', v)` with the camelCase property name of
the original javascript, while the avatar's real attribute is the
snake_case `direction_in_loop`; the `setattr` therefore creates a fresh
dangling attribute and leaves the real one untouched.  The embedding keeps
both so that the stack semantics is faithful. -/

/-- The mutable state of one avatar.  Trail points and the collision body
are modelled separately (`BodyE`); the bonus stack contents are passed
alongside where needed. -/
structure AvatarState where
  id : ℕ
  x : ℚ
  y : ℚ
  angle : ℚ
  velocityX : ℚ
  velocityY : ℚ
  angularVelocity : ℚ
  velocity : ℚ
  radius : ℚ
  angularVelocityBase : ℚ
  inverse : Bool
  invincible : Bool
  directionInLoop : Bool
  alive : Bool
  printing : Bool
  color : String
  playerColor : String
  score : ℤ
  roundScore : ℤ
  present : Bool
  attrDirectionInLoop : Option BVal
  attrAngularVelocityBase : Option BVal
  deriving DecidableEq, Repr

/-- `BaseAvatar.DEFAULT_VELOCITY = 16`. -/
def defaultVelocity : ℚ := 16

/-- `BaseAvatar.DEFAULT_RADIUS = 0.6`. -/
def defaultRadius : ℚ := 3 / 5

/-- `BaseAvatar.DEFAULT_ANGULAR_VELOCITY_BASE = 2.8 / 1000`. -/
def defaultAngularVelocityBase : ℚ := 28 / 10000

/-- `BaseAvatar.DEFAULT_TRAIL_LATENCY = 3`. -/
def defaultTrailLatency : ℤ := 3

/-- `BaseAvatar.__init__`: the state of a fresh avatar for a player with
the given id and colour. -/
def initAvatar (i : ℕ) (playerColor : String) : AvatarState :=
  { id := i, x := 0, y := 0, angle := 0, velocityX := 0, velocityY := 0
    angularVelocity := 0, velocity := defaultVelocity, radius := defaultRadius
    angularVelocityBase := defaultAngularVelocityBase
    inverse := false, invincible := false, directionInLoop := true
    alive := true, printing := false
    color := playerColor, playerColor := playerColor
    score := 0, roundScore := 0, present := true
    attrDirectionInLoop := none, attrAngularVelocityBase := none }

/-- `BaseAvatar.set_angular_velocity`. -/
def setAngularVelocity (w : ℚ) (a : AvatarState) : AvatarState :=
  { a with angularVelocity := w }

/-- `BaseAvatar.update_angular_velocity(factor)` with an explicit factor. -/
def updateAngularVelocityFactor (factor : ℚ) (a : AvatarState) : AvatarState :=
  setAngularVelocity (factor * a.angularVelocityBase * (if a.inverse then -1 else 1)) a

/-- `BaseAvatar.update_angular_velocity()` with `factor=None`: recompute the
angular velocity from its sign, the base and the inverse flag; a zero
angular velocity is left alone. -/
def updateAngularVelocityAuto (a : AvatarState) : AvatarState :=
  if a.angularVelocity = 0 then a
  else
    updateAngularVelocityFactor
      ((if 0 < a.angularVelocity then (1 : ℚ) else -1) * (if a.inverse then -1 else 1)) a

/-- `BaseAvatar.update_base_angular_velocity`: when `direction_in_loop`
holds, recompute `angular_velocity_base` from the velocity ratio; `logF`
abstracts `math.log`. -/
def updateBaseAngularVelocity (logF : ℚ → ℚ) (a : AvatarState) : AvatarState :=
  if a.directionInLoop then
    updateAngularVelocityAuto
      { a with angularVelocityBase :=
          a.velocity / defaultVelocity * defaultAngularVelocityBase
            + logF (1 / (a.velocity / defaultVelocity)) / 1000 }
  else a

/-- `BaseAvatar.update_velocities`: refresh the cartesian velocity
components from the angle, then the base angular velocity.  `cosF` and
`sinF` abstract `math.cos` and `math.sin`. -/
def updateVelocities (cosF sinF logF : ℚ → ℚ) (a : AvatarState) : AvatarState :=
  updateBaseAngularVelocity logF
    { a with velocityX := cosF a.angle * (a.velocity / 1000)
             velocityY := sinF a.angle * (a.velocity / 1000) }

/-- `BaseAvatar.set_angle` (and the identical guard in `Avatar.set_angle`):
update the angle and the velocity components when the angle changes. -/
def setAngle (cosF sinF logF : ℚ → ℚ) (t : ℚ) (a : AvatarState) : AvatarState :=
  if a.angle = t then a else updateVelocities cosF sinF logF { a with angle := t }

/-- `BaseAvatar.set_velocity`: clamp to at least `DEFAULT_VELOCITY / 2`,
then update the components when the clamped value differs. -/
def setVelocity (cosF sinF logF : ℚ → ℚ) (v : ℚ) (a : AvatarState) : AvatarState :=
  if a.velocity = max v (defaultVelocity / 2) then a
  else updateVelocities cosF sinF logF { a with velocity := max v (defaultVelocity / 2) }

/-- `BaseAvatar.set_radius`: clamp to at least `DEFAULT_RADIUS / 8`. -/
def setRadius (r : ℚ) (a : AvatarState) : AvatarState :=
  { a with radius := max r (defaultRadius / 8) }

/-- `BaseAvatar.set_inverse`: on change, store the flag and recompute the
angular velocity. -/
def setInverse (b : Bool) (a : AvatarState) : AvatarState :=
  if a.inverse = b then a else updateAngularVelocityAuto { a with inverse := b }

/-- `BaseAvatar.set_invincible`. -/
def setInvincible (b : Bool) (a : AvatarState) : AvatarState :=
  { a with invincible := b }

/-- `Avatar.set_color` / `BaseAvatar.set_color`. -/
def setColor (c : String) (a : AvatarState) : AvatarState :=
  { a with color := c }

/-- `BaseAvatar.set_position` (the collision-body mirror is modelled with
the bodies, not here). -/
def setPosition (px py : ℚ) (a : AvatarState) : AvatarState :=
  { a with x := px, y := py }

/-- `BaseAvatar.update_angle`: integrate the angle over the step in loop
mode, or apply the fixed turn and zero the angular velocity otherwise. -/
def updateAngle (cosF sinF logF : ℚ → ℚ) (step : ℚ) (a : AvatarState) : AvatarState :=
  if a.angularVelocity = 0 then a
  else if a.directionInLoop then
    setAngle cosF sinF logF (a.angle + a.angularVelocity * step) a
  else
    updateAngularVelocityFactor 0 (setAngle cosF sinF logF (a.angle + a.angularVelocity) a)

/-- `BaseAvatar.update_position`. -/
def updatePosition (step : ℚ) (a : AvatarState) : AvatarState :=
  setPosition (a.x + a.velocityX * step) (a.y + a.velocityY * step) a

/-- `Avatar.update`: angle then position integration for a live avatar
(trail-point emission touches only the trail, which is modelled apart). -/
def avatarUpdate (cosF sinF logF : ℚ → ℚ) (step : ℚ) (a : AvatarState) : AvatarState :=
  if a.alive then updatePosition step (updateAngle cosF sinF logF step a) else a

/-- `BaseAvatar.set_round_score`. -/
def setRoundScore (s : ℤ) (a : AvatarState) : AvatarState :=
  { a with roundScore := s }

/-- `BaseAvatar.set_score`. -/
def setScore (s : ℤ) (a : AvatarState) : AvatarState :=
  { a with score := s }

/-- `BaseAvatar.add_score`: credit into the round score. -/
def addScore (s : ℤ) (a : AvatarState) : AvatarState :=
  setRoundScore (a.roundScore + s) a

/-- `BaseAvatar.resolve_score`: commit the round score into the total score
and zero it. -/
def resolveScore (a : AvatarState) : AvatarState :=
  setRoundScore 0 (setScore (a.score + a.roundScore) a)

/-- `Avatar.die` / `BaseAvatar.die`: mark dead (the bonus-stack clearing
and the final trail point touch state modelled elsewhere). -/
def dieAvatar (a : AvatarState) : AvatarState :=
  { a with alive := false }

/-- `BaseAvatar.clear` (round reset).  Note the python order: the position
is set to `(radius, radius)` with the radius still in force *before* the
radius itself is reset, and the velocity components are zeroed while
`velocity` returns to 16. -/
def clearAvatar (a : AvatarState) : AvatarState :=
  { a with x := a.radius, y := a.radius, angle := 0, velocityX := 0, velocityY := 0
           angularVelocity := 0, roundScore := 0, velocity := defaultVelocity
           alive := true, printing := false, color := a.playerColor
           radius := defaultRadius, inverse := false, invincible := false
           directionInLoop := true, angularVelocityBase := defaultAngularVelocityBase }

/-! ## Wire compression (`shared/service/Compressor`) -/

/-- Python `int()` applied to a rational: truncation toward zero. -/
def pyInt (q : ℚ) : ℤ :=
  if 0 ≤ q then ⌊q⌋ else ⌈q⌉

/-- `Compressor.compress`: `int(0.5 + value * 100)`. -/
def compress (x : ℚ) : ℤ :=
  pyInt (1 / 2 + x * 100)

/-- `Compressor.decompress`: `value / 100`. -/
def decompress (z : ℤ) : ℚ :=
  (z : ℚ) / 100

/-- Modelled from the spec sentence `cx = round(0.5 + x · 100)`, reading
`round` as rounding to the nearest integer, for comparison with the
code's `compress`. -/
def specCompress (x : ℚ) : ℤ :=
  round (1 / 2 + x * 100)

/-- `pyInt` is the floor on nonnegative arguments. -/
theorem pyInt_eq_floor {q : ℚ} (h : 0 ≤ q) : pyInt q = ⌊q⌋ :=
  if_pos h

/-- `pyInt` is the ceiling on negative arguments. -/
theorem pyInt_eq_ceil {q : ℚ} (h : ¬ 0 ≤ q) : pyInt q = ⌈q⌉ :=
  if_neg h

/-- C8, counterexample.  At `x = -149/10000 = -0.0149` the code computes
`compress x = int(0.5 - 1.49) = int(-0.99) = 0` (truncation toward zero),
while the spec's formula `round(0.5 + x·100)` gives `-1`; and the
round trip `decompress (compress x) = 0` misses `x` by `149/10000`,
which exceeds the claimed `1/100` tolerance. -/
theorem compress_roundtrip_counterexample :
    compress (-149 / 10000) = 0 ∧
    specCompress (-149 / 10000) = -1 ∧
    ¬ |decompress (compress (-149 / 10000)) - (-149 / 10000)| ≤ 1 / 100 := by
  have hc : compress (-149 / 10000) = 0 := by
    rw [compress, pyInt_eq_ceil (by norm_num)]
    rw [show (1 / 2 + -149 / 10000 * 100 : ℚ) = -99 / 100 by norm_num]
    norm_num
  refine ⟨hc, ?_, ?_⟩
  · rw [specCompress, round_eq]
    rw [show (1 / 2 + -149 / 10000 * 100 + 1 / 2 : ℚ) = -49 / 100 by norm_num]
    norm_num
  · rw [hc, decompress]
    rw [show ((0 : ℤ) : ℚ) / 100 - (-149 / 10000) = 149 / 10000 by norm_num]
    rw [show |(149 : ℚ) / 10000| = 149 / 10000 from abs_of_pos (by norm_num)]
    norm_num

/-- C8, amended.  The compression is truncation toward zero of
`0.5 + x·100` (not rounding to nearest); whenever `0.5 + x·100` is
nonnegative (in particular for every nonnegative coordinate `x`) it
agrees with `⌊0.5 + x·100⌋` and the decompressed value recovers `x`
within `1/200`; for arbitrary (possibly negative) inputs the round-trip
error is below `3/200`, and the claimed `1/100` bound can fail. -/
theorem compress_roundtrip (x : ℚ) (hx : 0 ≤ x) :
    compress x = ⌊1 / 2 + x * 100⌋ ∧
    |decompress (compress x) - x| ≤ 1 / 200 ∧
    ∀ y : ℚ, |decompress (compress y) - y| < 3 / 200 := by
  have harg : (0 : ℚ) ≤ 1 / 2 + x * 100 := by positivity
  have hcx : compress x = ⌊1 / 2 + x * 100⌋ := by
    rw [compress, pyInt_eq_floor harg]
  refine ⟨hcx, ?_, ?_⟩
  · rw [hcx]
    have h1 : ((⌊1 / 2 + x * 100⌋ : ℤ) : ℚ) ≤ 1 / 2 + x * 100 := Int.floor_le _
    have h2 : 1 / 2 + x * 100 < (⌊1 / 2 + x * 100⌋ : ℚ) + 1 := Int.lt_floor_add_one _
    rw [abs_le]
    constructor
    · simp only [decompress]
      linarith
    · simp only [decompress]
      linarith
  · intro y
    by_cases hy : (0 : ℚ) ≤ 1 / 2 + y * 100
    · have hcy : compress y = ⌊1 / 2 + y * 100⌋ := by rw [compress, pyInt_eq_floor hy]
      rw [hcy]
      have h1 : ((⌊1 / 2 + y * 100⌋ : ℤ) : ℚ) ≤ 1 / 2 + y * 100 := Int.floor_le _
      have h2 : 1 / 2 + y * 100 < (⌊1 / 2 + y * 100⌋ : ℚ) + 1 := Int.lt_floor_add_one _
      rw [abs_lt]
      constructor <;> · simp only [decompress]; linarith
    · have hcy : compress y = ⌈1 / 2 + y * 100⌉ := by
        rw [compress, pyInt_eq_ceil hy]
      rw [hcy]
      have h1 : (1 / 2 + y * 100 : ℚ) ≤ ((⌈1 / 2 + y * 100⌉ : ℤ) : ℚ) := Int.le_ceil _
      have h2 : ((⌈1 / 2 + y * 100⌉ : ℤ) : ℚ) < 1 / 2 + y * 100 + 1 := Int.ceil_lt_add_one _
      rw [abs_lt]
      constructor <;> · simp only [decompress]; linarith

/-- C8, witness: the amended round-trip bound applied at `x = 7/500`. -/
theorem compress_roundtrip_witness :
    (0 : ℚ) ≤ 7 / 500 ∧
      (compress (7 / 500) = ⌊1 / 2 + (7 / 500 : ℚ) * 100⌋ ∧
        |decompress (compress (7 / 500)) - 7 / 500| ≤ 1 / 200 ∧
        ∀ y : ℚ, |decompress (compress y) - y| < 3 / 200) :=
  ⟨by norm_num, compress_roundtrip (7 / 500) (by norm_num)⟩

/-! ## GameClear probability (`server/model/Bonus/BonusGameClear`) -/

/-- Python 3 `round()` on a rational: round half to even (banker's
rounding).  The python port evaluates `round(2.5) = 2`, unlike the
javascript original's `Math.round`. -/
def pythonRound (q : ℚ) : ℤ :=
  if q - ⌊q⌋ < 1 / 2 then ⌊q⌋
  else if 1 / 2 < q - ⌊q⌋ then ⌊q⌋ + 1
  else if ⌊q⌋ % 2 = 0 then ⌊q⌋ else ⌊q⌋ + 1

/-- `BonusGameClear.get_probability`.  The base probability is
`BaseBonus.probability = 1.0` (not overridden along the
`BonusGameClear` class chain). -/
def bonusGameClearProbability (aliveCount presentCount : ℕ) : ℚ :=
  if presentCount = 0 then 0
  else if 1 - (aliveCount : ℚ) / (presentCount : ℚ) < 1 / 2 then 1
  else (pythonRound ((1 - (1 - (aliveCount : ℚ) / (presentCount : ℚ))) * 10) : ℚ) / 10

/-- `pythonRound` of a nonnegative rational is nonnegative. -/
theorem pythonRound_nonneg {q : ℚ} (h : 0 ≤ q) : 0 ≤ pythonRound q := by
  have hfl : (0 : ℤ) ≤ ⌊q⌋ := Int.floor_nonneg.mpr h
  unfold pythonRound
  split
  · exact hfl
  · split
    · omega
    · split
      · exact hfl
      · omega

/-- C7.  For `presentCount > 0` and ratio `s = aliveCount/presentCount`:
when `1 - s < 0.5` the probability is the base probability `1`, otherwise
it is `max 0 (round(s·10)/10)` (the `max` being redundant since the value
is already nonnegative); in particular 4 present avatars with 1 alive
yield `0.2`. -/
theorem gameClearProbability_spec (alive present : ℕ) (hp : 0 < present) :
    (1 - (alive : ℚ) / present < 1 / 2 →
      bonusGameClearProbability alive present = 1) ∧
    (¬ 1 - (alive : ℚ) / present < 1 / 2 →
      bonusGameClearProbability alive present
        = max 0 ((pythonRound ((alive : ℚ) / present * 10) : ℚ) / 10)) ∧
    bonusGameClearProbability 1 4 = 1 / 5 := by
  have hpz : present ≠ 0 := Nat.pos_iff_ne_zero.mp hp
  refine ⟨?_, ?_, ?_⟩
  · intro hlt
    rw [bonusGameClearProbability, if_neg hpz, if_pos hlt]
  · intro hge
    rw [bonusGameClearProbability, if_neg hpz, if_neg hge]
    rw [show (1 - (1 - (alive : ℚ) / present)) * 10 = (alive : ℚ) / present * 10 by ring]
    have hsn : (0 : ℚ) ≤ (alive : ℚ) / present * 10 := by positivity
    have := pythonRound_nonneg hsn
    rw [max_eq_right (by positivity)]
  · rw [bonusGameClearProbability]
    norm_num
    rw [pythonRound]
    norm_num

/-- C7, witness: the branch characterisation applied at 1 alive of 4
present avatars. -/
theorem gameClearProbability_spec_witness :
    0 < 4 ∧
      ((1 - (1 : ℚ) / 4 < 1 / 2 → bonusGameClearProbability 1 4 = 1) ∧
        (¬ 1 - (1 : ℚ) / 4 < 1 / 2 →
          bonusGameClearProbability 1 4
            = max 0 ((pythonRound ((1 : ℚ) / 4 * 10) : ℚ) / 10)) ∧
        bonusGameClearProbability 1 4 = 1 / 5) :=
  ⟨by norm_num, gameClearProbability_spec 1 4 (by norm_num)⟩

/-! ## Collision bodies (`server/core/Body`, `AvatarBody`, `Island`) -/

/-- The discriminating content of a collision body: a plain `Body` whose
`data` is a bonus (or nothing), or an `AvatarBody` carrying its owning
avatar's id and `trail_latency` together with its own trail sequence
number `num`. -/
inductive BodyKind where
  | plain (dataId : Option ℕ)
  | avatarBody (owner : ℕ) (latency : ℤ) (num : ℤ)
  deriving DecidableEq, Repr

/-- A collision body as held by the world's islands. -/
structure BodyE where
  x : ℚ
  y : ℚ
  radius : ℚ
  kind : BodyKind
  deriving DecidableEq, Repr

/-- `Body.match` / `AvatarBody.match`: a plain body matches everything; an
avatar body refuses only another avatar body of the same avatar whose
sequence number does not exceed its own by more than the trail latency
(`body.num - self.num > trail_latency`). -/
def matchBody (self other : BodyE) : Bool :=
  match self.kind with
  | .avatarBody owner latency num =>
    match other.kind with
    | .avatarBody owner2 _ num2 =>
      if owner = owner2 then decide (latency < num2 - num) else true
    | .plain _ => true
  | .plain _ => true

/-- `Island.bodies_touch`: euclidean distance below the radius sum, and
`body_a.match(body_b)` accepts. -/
def BodiesTouch (bodyA bodyB : BodyE) : Prop :=
  Real.sqrt (((bodyA.x - bodyB.x : ℚ) : ℝ) ^ 2 + ((bodyA.y - bodyB.y : ℚ) : ℝ) ^ 2)
      < ((bodyA.radius + bodyB.radius : ℚ) : ℝ)
    ∧ matchBody bodyA bodyB = true

/-- C2.  `match` returns true except for two avatar bodies of the same
avatar at sequence distance at most the trail latency; consequently a
moving avatar body at sequence number `n` never touches the avatar's own
trail bodies numbered `n - L` and above (the collision scan calls
`trailBody.match(movingBody)`, which fails), it does touch any own trail
body numbered at most `n - L - 1` whenever the distance test passes, and
it always matches bodies of other avatars and plain (bonus) bodies. -/
theorem avatarBody_match_spec :
    (∀ self other : BodyE,
      matchBody self other = false ↔
        ∃ owner latency num num2,
          self.kind = .avatarBody owner latency num ∧
          (∃ latency2, other.kind = .avatarBody owner latency2 num2) ∧
          num2 - num ≤ latency) ∧
    (∀ (trailBody movingBody : BodyE) (owner : ℕ) (latency m n : ℤ),
      trailBody.kind = .avatarBody owner latency m →
      movingBody.kind = .avatarBody owner latency n →
      n - m ≤ latency →
      ¬ BodiesTouch trailBody movingBody) ∧
    (∀ (trailBody movingBody : BodyE) (owner : ℕ) (latency m n : ℤ),
      trailBody.kind = .avatarBody owner latency m →
      movingBody.kind = .avatarBody owner latency n →
      m ≤ n - latency - 1 →
      Real.sqrt (((trailBody.x - movingBody.x : ℚ) : ℝ) ^ 2
          + ((trailBody.y - movingBody.y : ℚ) : ℝ) ^ 2)
        < ((trailBody.radius + movingBody.radius : ℚ) : ℝ) →
      BodiesTouch trailBody movingBody) ∧
    (∀ (self other : BodyE) (o1 l1 n1 o2 l2 n2 : _),
      self.kind = .avatarBody o1 l1 n1 → other.kind = .avatarBody o2 l2 n2 →
      o1 ≠ o2 → matchBody self other = true) ∧
    (∀ (self other : BodyE) (d : Option ℕ),
      other.kind = .plain d → matchBody self other = true) := by
  have havav : ∀ (self other : BodyE) (o1 : ℕ) (l1 n1 : ℤ) (o2 : ℕ) (l2 n2 : ℤ),
      self.kind = .avatarBody o1 l1 n1 → other.kind = .avatarBody o2 l2 n2 →
      matchBody self other = if o1 = o2 then decide (l1 < n2 - n1) else true := by
    intro self other o1 l1 n1 o2 l2 n2 hk hk2
    simp only [matchBody, hk, hk2]
  have hplain : ∀ (self other : BodyE) (d : Option ℕ),
      other.kind = .plain d → matchBody self other = true := by
    intro self other d hk2
    simp only [matchBody, hk2]
    rcases self.kind with _ | _ <;> rfl
  have hmatch : ∀ self other : BodyE,
      matchBody self other = false ↔
        ∃ owner latency num num2,
          self.kind = .avatarBody owner latency num ∧
          (∃ latency2, other.kind = .avatarBody owner latency2 num2) ∧
          num2 - num ≤ latency := by
    intro self other
    constructor
    · intro h
      rcases hk : self.kind with d | ⟨owner, latency, num⟩
      · simp only [matchBody, hk] at h
        rcases other.kind with _ | _ <;> simp at h
      · rcases hk2 : other.kind with d2 | ⟨owner2, latency2, num2⟩
        · rw [hplain self other d2 hk2] at h
          simp at h
        · rw [havav self other owner latency num owner2 latency2 num2 hk hk2] at h
          by_cases ho : owner = owner2
          · rw [if_pos ho] at h
            subst ho
            refine ⟨owner, latency, num, num2, rfl, ⟨latency2, rfl⟩, by simpa using h⟩
          · rw [if_neg ho] at h
            simp at h
    · rintro ⟨owner, latency, num, num2, hk, ⟨latency2, hk2⟩, hle⟩
      rw [havav self other owner latency num owner latency2 num2 hk hk2, if_pos rfl]
      simpa using not_lt.mpr hle
  refine ⟨hmatch, ?_, ?_, ?_, hplain⟩
  · intro trailBody movingBody owner latency m n hk hk2 hle htouch
    have hfalse : matchBody trailBody movingBody = false :=
      (hmatch trailBody movingBody).mpr ⟨owner, latency, m, n, hk, ⟨latency, hk2⟩, hle⟩
    rw [htouch.2] at hfalse
    exact Bool.noConfusion hfalse
  · intro trailBody movingBody owner latency m n hk hk2 hle hdist
    refine ⟨hdist, ?_⟩
    rw [havav trailBody movingBody owner latency m owner latency n hk hk2, if_pos rfl]
    have hlt : latency < n - m := by omega
    simpa using hlt
  · intro self other o1 l1 n1 o2 l2 n2 hk hk2 ho
    rw [havav self other o1 l1 n1 o2 l2 n2 hk hk2, if_neg ho]

/-- C2, witness: with the default latency 3 and owner 7, the moving body
at sequence number 10 refuses its own segment 7 and touches its own
segment 6 at overlapping positions; a plain bonus body always matches. -/
theorem avatarBody_match_spec_witness :
    (matchBody ⟨0, 0, 1, .avatarBody 7 3 7⟩ ⟨0, 0, 1, .avatarBody 7 3 10⟩ = false ↔
        ∃ owner latency num num2,
          (BodyKind.avatarBody 7 3 7 : BodyKind) = .avatarBody owner latency num ∧
          (∃ latency2,
            (BodyKind.avatarBody 7 3 10 : BodyKind) = .avatarBody owner latency2 num2) ∧
          num2 - num ≤ latency) ∧
    ¬ BodiesTouch ⟨0, 0, 1, .avatarBody 7 3 7⟩ ⟨0, 0, 1, .avatarBody 7 3 10⟩ ∧
    (Real.sqrt (((0 - 0 : ℚ) : ℝ) ^ 2 + ((0 - 0 : ℚ) : ℝ) ^ 2)
        < ((1 + 1 : ℚ) : ℝ) →
      BodiesTouch ⟨0, 0, 1, .avatarBody 7 3 6⟩ ⟨0, 0, 1, .avatarBody 7 3 10⟩) ∧
    matchBody ⟨0, 0, 1, .avatarBody 7 3 7⟩ ⟨0, 0, 1, .plain (some 4)⟩ = true := by
  obtain ⟨h1, h2, h3, _, h5⟩ := avatarBody_match_spec
  refine ⟨h1 _ _, ?_, ?_, h5 _ _ (some 4) rfl⟩
  · exact h2 _ _ 7 3 7 10 rfl rfl (by norm_num)
  · intro hd
    exact h3 _ _ 7 3 6 10 rfl rfl (by norm_num) hd

/-! ## Random placement (`server/core/World.get_random_position`)

The random generator is abstracted as a stream `u : ℕ → ℚ × ℚ` of unit
draws (`random.random()` pairs) and the spatial-index query
`World.test_body` as a point predicate `testB` (the candidate body always
has radius `margin`, so the point determines the query). -/

/-- The retry loop of `get_random_position`: test the current candidate,
on failure move to the next sample while attempts remain.  `fuel` is the
number of remaining resampling attempts (`max_attempts - attempts`). -/
def grpAux (testB : ℚ × ℚ → Bool) (samp : ℕ → ℚ × ℚ) : ℕ → ℕ → ℚ × ℚ
  | k, 0 => samp k
  | k, fuel + 1 => if testB (samp k) then samp k else grpAux testB samp (k + 1) fuel

/-- `margin = radius + border * size`. -/
def grpMargin (size radius border : ℚ) : ℚ := radius + border * size

/-- `World._get_random_point` applied to the `k`-th unit draw pair:
a candidate point with both coordinates in
`[margin, margin + (size - 2·margin))`. -/
def grpSample (size margin : ℚ) (u : ℕ → ℚ × ℚ) (k : ℕ) : ℚ × ℚ :=
  (margin + (u k).1 * (size - margin * 2), margin + (u k).2 * (size - margin * 2))

/-- `World.get_random_position` with `max_attempts = 1000`. -/
def getRandomPosition (size : ℚ) (u : ℕ → ℚ × ℚ) (testB : ℚ × ℚ → Bool)
    (radius border : ℚ) : ℚ × ℚ :=
  grpAux testB (grpSample size (grpMargin size radius border) u) 0 1000

/-- The loop returns the first passing candidate, or after exhausting the
attempt budget the last candidate drawn, tested or not. -/
theorem grpAux_spec (testB : ℚ × ℚ → Bool) (samp : ℕ → ℚ × ℚ) :
    ∀ (fuel k : ℕ), ∃ j, k ≤ j ∧ j ≤ k + fuel ∧
      grpAux testB samp k fuel = samp j ∧
      (∀ i, k ≤ i → i < j → testB (samp i) = false) ∧
      (testB (samp j) = true ∨ j = k + fuel) := by
  intro fuel
  induction fuel with
  | zero =>
    intro k
    exact ⟨k, le_refl k, by omega, rfl, fun i h1 h2 => absurd h1 (by omega), Or.inr (by omega)⟩
  | succ n ih =>
    intro k
    by_cases h : testB (samp k) = true
    · exact ⟨k, le_refl k, by omega, by rw [grpAux, if_pos h],
        fun i h1 h2 => absurd h1 (by omega), Or.inl h⟩
    · obtain ⟨j, hj1, hj2, hj3, hj4, hj5⟩ := ih (k + 1)
      refine ⟨j, by omega, by omega, ?_, ?_, ?_⟩
      · rw [grpAux, if_neg h]
        exact hj3
      · intro i h1 h2
        rcases Nat.eq_or_lt_of_le h1 with heq | hlt
        · rw [← heq]
          exact Bool.eq_false_iff.mpr h
        · exact hj4 i hlt h2
      · rcases hj5 with h5 | h5
        · exact Or.inl h5
        · exact Or.inr (by omega)

/-- C9.  With `margin = radius + border·size`, every candidate drawn from
unit draws lies in the square `[margin, size - margin]²`; the function
always returns one of its candidates, namely the first one accepted by
`test_body` — every earlier (failing) candidate is rejected — and if the
first 1000 retries all fail it returns candidate number 1000, the last
one tried, unchanged, whether or not it passes the test. -/
theorem getRandomPosition_spec (size radius border : ℚ) (u : ℕ → ℚ × ℚ)
    (testB : ℚ × ℚ → Bool)
    (hu : ∀ k, 0 ≤ (u k).1 ∧ (u k).1 < 1 ∧ 0 ≤ (u k).2 ∧ (u k).2 < 1)
    (hm : 2 * grpMargin size radius border ≤ size) :
    (∃ j, j ≤ 1000 ∧
      getRandomPosition size u testB radius border
        = grpSample size (grpMargin size radius border) u j ∧
      (∀ i, i < j →
        testB (grpSample size (grpMargin size radius border) u i) = false) ∧
      (testB (grpSample size (grpMargin size radius border) u j) = true ∨ j = 1000)) ∧
    (∀ k,
      grpMargin size radius border
          ≤ (grpSample size (grpMargin size radius border) u k).1 ∧
        (grpSample size (grpMargin size radius border) u k).1
          ≤ size - grpMargin size radius border ∧
        grpMargin size radius border
          ≤ (grpSample size (grpMargin size radius border) u k).2 ∧
        (grpSample size (grpMargin size radius border) u k).2
          ≤ size - grpMargin size radius border) := by
  constructor
  · obtain ⟨j, hj1, hj2, hj3, hj4, hj5⟩ :=
      grpAux_spec testB (grpSample size (grpMargin size radius border) u) 1000 0
    exact ⟨j, by omega, hj3, fun i hi => hj4 i (by omega) hi, by simpa using hj5⟩
  · intro k
    obtain ⟨h1, h2, h3, h4⟩ := hu k
    have hspan : (0 : ℚ) ≤ size - grpMargin size radius border * 2 := by linarith
    refine ⟨?_, ?_, ?_, ?_⟩
    · simp only [grpSample]
      nlinarith
    · simp only [grpSample]
      nlinarith
    · simp only [grpSample]
      nlinarith
    · simp only [grpSample]
      nlinarith

/-- C9, witness: the sampler characterisation on a concrete world of size
100, radius 1, border fraction 1/20, a constant unit draw and a test that
accepts everything. -/
theorem getRandomPosition_spec_witness :
    ((∀ k : ℕ, 0 ≤ ((fun _ => ((1 : ℚ) / 2, (1 : ℚ) / 2)) k).1 ∧
        ((fun _ => ((1 : ℚ) / 2, (1 : ℚ) / 2)) k).1 < 1 ∧
        0 ≤ ((fun _ => ((1 : ℚ) / 2, (1 : ℚ) / 2)) k).2 ∧
        ((fun _ => ((1 : ℚ) / 2, (1 : ℚ) / 2)) k).2 < 1) ∧
      2 * grpMargin 100 1 (1 / 20) ≤ 100) ∧
    ((∃ j, j ≤ 1000 ∧
      getRandomPosition 100 (fun _ => ((1 : ℚ) / 2, (1 : ℚ) / 2)) (fun _ => true) 1 (1 / 20)
        = grpSample 100 (grpMargin 100 1 (1 / 20)) (fun _ => ((1 : ℚ) / 2, (1 : ℚ) / 2)) j ∧
      (∀ i, i < j →
        (fun _ => true) (grpSample 100 (grpMargin 100 1 (1 / 20))
          (fun _ => ((1 : ℚ) / 2, (1 : ℚ) / 2)) i) = false) ∧
      ((fun _ => true) (grpSample 100 (grpMargin 100 1 (1 / 20))
          (fun _ => ((1 : ℚ) / 2, (1 : ℚ) / 2)) j) = true ∨ j = 1000)) ∧
    (∀ k,
      grpMargin 100 1 (1 / 20)
          ≤ (grpSample 100 (grpMargin 100 1 (1 / 20))
              (fun _ => ((1 : ℚ) / 2, (1 : ℚ) / 2)) k).1 ∧
        (grpSample 100 (grpMargin 100 1 (1 / 20))
              (fun _ => ((1 : ℚ) / 2, (1 : ℚ) / 2)) k).1
          ≤ 100 - grpMargin 100 1 (1 / 20) ∧
        grpMargin 100 1 (1 / 20)
          ≤ (grpSample 100 (grpMargin 100 1 (1 / 20))
              (fun _ => ((1 : ℚ) / 2, (1 : ℚ) / 2)) k).2 ∧
        (grpSample 100 (grpMargin 100 1 (1 / 20))
              (fun _ => ((1 : ℚ) / 2, (1 : ℚ) / 2)) k).2
          ≤ 100 - grpMargin 100 1 (1 / 20))) :=
  ⟨⟨fun _ => by norm_num, by rw [grpMargin]; norm_num⟩,
    getRandomPosition_spec 100 1 (1 / 20) (fun _ => ((1 : ℚ) / 2, (1 : ℚ) / 2))
      (fun _ => true) (fun _ => by norm_num) (by rw [grpMargin]; norm_num)⟩

/-! ## Bonus pick-up (`server/manager/BonusManager.test_catch` / `remove`)

Bonuses are identified by their manager-assigned ids.  `bonuses` models
the manager's id-keyed collection, `worldBodies` the bonus spatial index
(the manager's private one-island world, assumed active during play), and
`applied` the ordered log of `bonus.apply_to` calls.  The geometric query
`world.get_body(avatar.body)` is abstracted by the predicate `touch`:
it returns the first indexed bonus body touching the avatar. -/

/-- The bonus-manager state observable by `test_catch`. -/
structure BMState where
  bonuses : List ℕ
  worldBodies : List ℕ
  applied : List ℕ
  deriving DecidableEq, Repr

/-- `BonusManager.remove`: `BaseBonusManager.remove` drops the bonus from
the collection (reporting success), and on success the body leaves the
spatial index. -/
def bmRemove (b : ℕ) (st : BMState) : BMState × Bool :=
  if b ∈ st.bonuses then
    ({ st with bonuses := st.bonuses.erase b, worldBodies := st.worldBodies.erase b }, true)
  else (st, false)

/-- `BonusManager.test_catch`: find a touching bonus body; apply the bonus
(append to the `applied` log) only if `remove` succeeded — and then only
after the body has left the index. -/
def testCatch (touch : ℕ → Bool) (st : BMState) : BMState :=
  match st.worldBodies.find? touch with
  | none => st
  | some b =>
      let r := bmRemove b st
      if r.2 then { r.1 with applied := r.1.applied ++ [b] } else r.1

/-- A sequence of pick-up attempts by arbitrary avatars (each with its own
touch oracle). -/
def runCatches (ts : List (ℕ → Bool)) (st : BMState) : BMState :=
  ts.foldl (fun s t => testCatch t s) st

/-- The at-most-once invariant: the number of applications of bonus `b`
plus its remaining multiplicity in the collection never exceeds one. -/
def AppliedOnceInv (b : ℕ) (st : BMState) : Prop :=
  st.applied.count b + st.bonuses.count b ≤ 1

/-- The two branch behaviours of one `test_catch` step. -/
theorem testCatch_cases (touch : ℕ → Bool) (st : BMState) :
    testCatch touch st = st ∨
      ∃ c, st.worldBodies.find? touch = some c ∧ c ∈ st.bonuses ∧
        testCatch touch st =
          { bonuses := st.bonuses.erase c, worldBodies := st.worldBodies.erase c,
            applied := st.applied ++ [c] } := by
  cases hf : st.worldBodies.find? touch with
  | none =>
    left
    simp [testCatch, hf]
  | some c =>
    by_cases hc : c ∈ st.bonuses
    · right
      exact ⟨c, rfl, hc, by simp [testCatch, hf, bmRemove, hc]⟩
    · left
      simp [testCatch, hf, bmRemove, hc]

/-- One `test_catch` preserves the at-most-once invariant. -/
theorem testCatch_inv (b : ℕ) (touch : ℕ → Bool) (st : BMState)
    (h : AppliedOnceInv b st) : AppliedOnceInv b (testCatch touch st) := by
  unfold AppliedOnceInv at h ⊢
  rcases testCatch_cases touch st with heq | ⟨c, _, hc, heq⟩
  · rw [heq]
    exact h
  · rw [heq]
    simp only [List.count_append]
    by_cases hcb : c = b
    · subst hcb
      have hcount : 1 ≤ st.bonuses.count c := List.one_le_count_iff.mpr hc
      have herase : (st.bonuses.erase c).count c = st.bonuses.count c - 1 :=
        List.count_erase_self c st.bonuses
      have hone : List.count c [c] = 1 := by simp
      rw [herase, hone]
      omega
    · have herase : (st.bonuses.erase c).count b = st.bonuses.count b :=
        List.count_erase_of_ne (fun hne => hcb hne.symm) st.bonuses
      have hzero : List.count b [c] = 0 := by
        rw [List.count_eq_zero]
        simp only [List.mem_singleton]
        exact fun hbc => hcb hbc.symm
      rw [herase, hzero]
      omega

/-- The at-most-once invariant survives any sequence of pick-up
attempts. -/
theorem runCatches_inv (b : ℕ) (ts : List (ℕ → Bool)) (st : BMState)
    (h : AppliedOnceInv b st) : AppliedOnceInv b (runCatches ts st) := by
  unfold runCatches
  induction ts generalizing st with
  | nil => exact h
  | cons t rest ih => exact ih (testCatch t st) (testCatch_inv b t st h)

/-- C10.  (1) A caught bonus is applied only when its removal from the
collection succeeds, and at application time its body has already left
the spatial index; a failed removal leaves the state untouched (second
pick-up of the same bonus is a no-op).  (2) Hence, across any sequence of
pick-up attempts, a bonus that the collection holds at most once is
applied at most once. -/
theorem testCatch_spec (touch : ℕ → Bool) (st : BMState) (hnodup : st.worldBodies.Nodup) :
    (testCatch touch st = st ∨
      (∃ b, st.worldBodies.find? touch = some b ∧ b ∈ st.bonuses ∧
        (testCatch touch st).applied = st.applied ++ [b] ∧
        (testCatch touch st).bonuses = st.bonuses.erase b ∧
        (testCatch touch st).worldBodies = st.worldBodies.erase b ∧
        b ∉ (testCatch touch st).worldBodies)) ∧
    (∀ (b : ℕ) (ts : List (ℕ → Bool)),
      AppliedOnceInv b st → (runCatches ts st).applied.count b ≤ 1) := by
  constructor
  · rcases testCatch_cases touch st with heq | ⟨c, hf, hc, heq⟩
    · left
      exact heq
    · right
      refine ⟨c, hf, hc, ?_, ?_, ?_, ?_⟩
      · rw [heq]
      · rw [heq]
      · rw [heq]
      · rw [heq]
        exact hnodup.not_mem_erase
  · intro b ts hinv
    have hrun := runCatches_inv b ts st hinv
    unfold AppliedOnceInv at hrun
    omega

/-- C10, witness: a single spawned bonus 5 is caught once, applied once,
and a second overlapping pick-up attempt is a no-op. -/
theorem testCatch_spec_witness :
    (List.Nodup [5] ∧
      ((testCatch (fun _ => true) ⟨[5], [5], []⟩ = ⟨[5], [5], []⟩ ∨
        (∃ b, List.find? (fun _ => true) [5] = some b ∧ b ∈ [5] ∧
          (testCatch (fun _ => true) ⟨[5], [5], []⟩).applied = [] ++ [b] ∧
          (testCatch (fun _ => true) ⟨[5], [5], []⟩).bonuses = List.erase [5] b ∧
          (testCatch (fun _ => true) ⟨[5], [5], []⟩).worldBodies = List.erase [5] b ∧
          b ∉ (testCatch (fun _ => true) ⟨[5], [5], []⟩).worldBodies)) ∧
        (∀ (b : ℕ) (ts : List (ℕ → Bool)),
          AppliedOnceInv b ⟨[5], [5], []⟩ →
            (runCatches ts ⟨[5], [5], []⟩).applied.count b ≤ 1))) ∧
    AppliedOnceInv 5 ⟨[5], [5], []⟩ ∧
    (runCatches [fun _ => true, fun _ => true] ⟨[5], [5], []⟩).applied.count 5 = 1 := by
  refine ⟨⟨by decide, testCatch_spec (fun _ => true) ⟨[5], [5], []⟩ (by decide)⟩, ?_, ?_⟩
  · unfold AppliedOnceInv
    decide
  · decide

/-! ## Avatar bonus stack (`BaseBonusStack` + server `BonusStack`)

`resolve` builds a property dictionary (insertion-ordered, like a python
dict) and applies it to the avatar.  The float power `2 ** v` used by the
radius application is abstracted as `pow2F`. -/

/-- The property names that occur in avatar bonus effects and in
`BonusStack.get_default_property` / `BonusStack.apply`. -/
inductive BonusProp where
  | printing
  | radius
  | color
  | velocity
  | inverse
  | invincible
  | directionInLoop
  | angularVelocityBase
  deriving DecidableEq, Repr

/-- A server bonus as seen by an avatar's stack: its collection id and
its `get_effects` list (effects of the repository's bonuses do not depend
on the target). -/
structure BonusE where
  id : ℕ
  effects : List (BonusProp × BVal)
  deriving DecidableEq, Repr

/-- `BonusStack.get_default_property`: per-target defaults; properties
without a special case (`directionInLoop`, `angularVelocityBase`) default
to the number `0`. -/
def defaultProp (a : AvatarState) : BonusProp → BVal
  | .printing => .num 1
  | .radius => .num 0
  | .color => .str a.playerColor
  | .velocity => .num defaultVelocity
  | .inverse => .num 0
  | .invincible => .num 0
  | .directionInLoop => .num 0
  | .angularVelocityBase => .num 0

/-- The properties that `BonusStack.append` replaces instead of adding. -/
def isReplaced : BonusProp → Bool
  | .directionInLoop => true
  | .angularVelocityBase => true
  | .color => true
  | _ => false

/-- Python `+=` on effect values.  All additive properties of the
repository's bonuses carry numbers (python `bool` adds as an integer);
a string in an additive position would raise in python and is
unreachable here. -/
def bvalAdd : BVal → BVal → BVal
  | .num a, .num b => .num (a + b)
  | .bool a, .num b => .num ((if a then 1 else 0) + b)
  | .num a, .bool b => .num (a + if b then 1 else 0)
  | .bool a, .bool b => .num ((if a then 1 else 0) + (if b then 1 else 0))
  | _, b => b

/-- Insertion-ordered dictionary write: update in place when the key is
present, append at the end otherwise (python dict semantics). -/
def propsSet (ps : List (BonusProp × BVal)) (p : BonusProp) (v : BVal) :
    List (BonusProp × BVal) :=
  match ps with
  | [] => [(p, v)]
  | (q, w) :: rest => if q = p then (q, v) :: rest else (q, w) :: propsSet rest p v

/-- Dictionary lookup. -/
def propsGet (ps : List (BonusProp × BVal)) (p : BonusProp) : Option BVal :=
  (ps.find? (fun e => e.1 = p)).map (fun e => e.2)

/-- One effect entry during aggregation: seed the default when the key is
new, then `BonusStack.append` (replace or add). -/
def aggregateOne (a : AvatarState) (ps : List (BonusProp × BVal))
    (p : BonusProp) (v : BVal) : List (BonusProp × BVal) :=
  let seeded := match propsGet ps p with
    | some _ => ps
    | none => propsSet ps p (defaultProp a p)
  if isReplaced p then propsSet seeded p v
  else
    match propsGet seeded p with
    | some w => propsSet seeded p (bvalAdd w v)
    | none => propsSet seeded p v

/-- `BonusStack.apply` on one property/value pair. -/
def applyProp (cosF sinF logF pow2F : ℚ → ℚ) (a : AvatarState)
    (p : BonusProp) (v : BVal) : AvatarState :=
  match p with
  | .radius => setRadius (defaultRadius * pow2F (bvalNum v)) a
  | .velocity => setVelocity cosF sinF logF (bvalNum v) a
  | .inverse => setInverse (decide ((bvalNum v).num % 2 ≠ 0)) a
  | .invincible => setInvincible (bvalTruthy v) a
  | .printing =>
      if 0 < bvalNum v then { a with printing := true } else { a with printing := false }
  | .color => setColor (bvalStr v) a
  | .directionInLoop => { a with attrDirectionInLoop := some v }
  | .angularVelocityBase => { a with attrAngularVelocityBase := some v }

/-- `BaseBonusStack.resolve`: seed the removed bonus's properties with
their defaults, aggregate the effects of every bonus still on the stack,
then apply the dictionary in insertion order.  The defaults are computed
from the target as it is when the dictionary is built (only the immutable
`playerColor` is read). -/
def resolveStack (cosF sinF logF pow2F : ℚ → ℚ) (removed : Option BonusE)
    (stack : List BonusE) (a : AvatarState) : AvatarState :=
  let ps0 : List (BonusProp × BVal) :=
    match removed with
    | some b => b.effects.foldl (fun ps e => propsSet ps e.1 (defaultProp a e.1)) []
    | none => []
  let ps := stack.foldl (fun ps b =>
    b.effects.foldl (fun ps e => aggregateOne a ps e.1 e.2) ps) ps0
  ps.foldl (fun st e => applyProp cosF sinF logF pow2F st e.1 e.2) a

/-- `BaseBonusStack.add` (the server subclass only adds an event emit):
insert into the id-keyed collection; on success re-resolve. -/
def stackAdd (cosF sinF logF pow2F : ℚ → ℚ) (b : BonusE) (stack : List BonusE)
    (a : AvatarState) : List BonusE × AvatarState :=
  if stack.any (fun x => x.id = b.id) then (stack, a)
  else (stack ++ [b], resolveStack cosF sinF logF pow2F none (stack ++ [b]) a)

/-- `BaseBonusStack.remove`: drop from the collection by id; on success
re-resolve with the removed bonus's properties reset to defaults. -/
def stackRemove (cosF sinF logF pow2F : ℚ → ℚ) (b : BonusE) (stack : List BonusE)
    (a : AvatarState) : List BonusE × AvatarState :=
  if stack.any (fun x => x.id = b.id) then
    let stack2 := stack.filter (fun x => x.id ≠ b.id)
    (stack2, resolveStack cosF sinF logF pow2F (some b) stack2 a)
  else (stack, a)

/-! The avatar-affecting bonuses of the repository
(`server/model/Bonus/*`).  `halfPi` stands for the float `math.pi / 2`
carried by the straight-angle effect and `c` for a generated colour. -/

/-- `BonusSelfFast.get_effects`: `velocity += 0.5 · 16`. -/
def bonusSelfFast (i : ℕ) : BonusE := ⟨i, [(.velocity, .num 8)]⟩

/-- `BonusSelfSlow.get_effects`: `velocity -= 0.5 · 16`. -/
def bonusSelfSlow (i : ℕ) : BonusE := ⟨i, [(.velocity, .num (-8))]⟩

/-- `BonusSelfMaster.get_effects`: `invincible += 1`. -/
def bonusSelfMaster (i : ℕ) : BonusE := ⟨i, [(.invincible, .num 1)]⟩

/-- `BonusSelfSmall.get_effects`: `radius -= 1` (halving exponent). -/
def bonusSelfSmall (i : ℕ) : BonusE := ⟨i, [(.radius, .num (-1))]⟩

/-- `BonusEnemyBig.get_effects`: `radius += 1` (doubling exponent). -/
def bonusEnemyBig (i : ℕ) : BonusE := ⟨i, [(.radius, .num 1)]⟩

/-- `BonusEnemyFast.get_effects`: `velocity += 0.75 · 16`. -/
def bonusEnemyFast (i : ℕ) : BonusE := ⟨i, [(.velocity, .num 12)]⟩

/-- `BonusEnemySlow.get_effects`: `velocity -= 0.75 · 16`. -/
def bonusEnemySlow (i : ℕ) : BonusE := ⟨i, [(.velocity, .num (-12))]⟩

/-- `BonusEnemyInverse.get_effects`: `inverse += 1`. -/
def bonusEnemyInverse (i : ℕ) : BonusE := ⟨i, [(.inverse, .num 1)]⟩

/-- `BonusEnemyStraightAngle.get_effects`: `directionInLoop := False`,
`angularVelocityBase := π/2`. -/
def bonusEnemyStraightAngle (i : ℕ) (halfPi : ℚ) : BonusE :=
  ⟨i, [(.directionInLoop, .bool false), (.angularVelocityBase, .num halfPi)]⟩

/-- `BonusAllColor.get_effects`: `color := self.color` (a random colour
drawn at spawn time). -/
def bonusAllColor (i : ℕ) (c : String) : BonusE := ⟨i, [(.color, .str c)]⟩

/-- The avatar-affecting bonus instances of the repository, for a given
id, straight-angle float and colour. -/
def avatarBonuses (i : ℕ) (halfPi : ℚ) (c : String) : List BonusE :=
  [bonusSelfFast i, bonusSelfSlow i, bonusSelfMaster i, bonusSelfSmall i,
   bonusEnemyBig i, bonusEnemyFast i, bonusEnemySlow i, bonusEnemyInverse i,
   bonusEnemyStraightAngle i halfPi, bonusAllColor i c]

set_option maxHeartbeats 2000000 in
/-- C3.  For every avatar-affecting bonus `B` of the repository and a
default-state avatar and stack, `add(B)` then `remove(B)` leaves an empty
stack and every property named by `B`'s effects back at its per-target
default: velocity 16, radius `0.6` (exponent 0), inverse and invincible
false, colour the player's colour, and `direction_in_loop` /
`angular_velocity_base` at their avatar defaults (the straight-angle
effects only ever write the dangling camelCase attributes).  The
hypotheses record the float facts `math.log(1) = 0` and `2**0 = 1` used
by the restoring `set_velocity` / `set_radius` calls. -/
theorem bonusStack_restore_defaults (cosF sinF logF pow2F : ℚ → ℚ)
    (hlog : logF 1 = 0) (hpow : pow2F 0 = 1)
    (i bid : ℕ) (pc : String) (halfPi : ℚ) (c : String) (b : BonusE)
    (hb : b ∈ avatarBonuses bid halfPi c) :
    ((stackRemove cosF sinF logF pow2F b
        (stackAdd cosF sinF logF pow2F b [] (initAvatar i pc)).1
        (stackAdd cosF sinF logF pow2F b [] (initAvatar i pc)).2).1 = [] ∧
      (stackRemove cosF sinF logF pow2F b
        (stackAdd cosF sinF logF pow2F b [] (initAvatar i pc)).1
        (stackAdd cosF sinF logF pow2F b [] (initAvatar i pc)).2).2.velocity
          = defaultVelocity ∧
      (stackRemove cosF sinF logF pow2F b
        (stackAdd cosF sinF logF pow2F b [] (initAvatar i pc)).1
        (stackAdd cosF sinF logF pow2F b [] (initAvatar i pc)).2).2.radius
          = defaultRadius ∧
      (stackRemove cosF sinF logF pow2F b
        (stackAdd cosF sinF logF pow2F b [] (initAvatar i pc)).1
        (stackAdd cosF sinF logF pow2F b [] (initAvatar i pc)).2).2.inverse = false ∧
      (stackRemove cosF sinF logF pow2F b
        (stackAdd cosF sinF logF pow2F b [] (initAvatar i pc)).1
        (stackAdd cosF sinF logF pow2F b [] (initAvatar i pc)).2).2.invincible = false ∧
      (stackRemove cosF sinF logF pow2F b
        (stackAdd cosF sinF logF pow2F b [] (initAvatar i pc)).1
        (stackAdd cosF sinF logF pow2F b [] (initAvatar i pc)).2).2.color = pc ∧
      (stackRemove cosF sinF logF pow2F b
        (stackAdd cosF sinF logF pow2F b [] (initAvatar i pc)).1
        (stackAdd cosF sinF logF pow2F b [] (initAvatar i pc)).2).2.directionInLoop
          = true ∧
      (stackRemove cosF sinF logF pow2F b
        (stackAdd cosF sinF logF pow2F b [] (initAvatar i pc)).1
        (stackAdd cosF sinF logF pow2F b [] (initAvatar i pc)).2).2.angularVelocityBase
          = defaultAngularVelocityBase) := by
  simp only [avatarBonuses, List.mem_cons, List.not_mem_nil, or_false] at hb
  rcases hb with rfl | rfl | rfl | rfl | rfl | rfl | rfl | rfl | rfl | rfl <;>
    simp +decide [stackAdd, stackRemove, resolveStack, aggregateOne, propsGet, propsSet,
      defaultProp, isReplaced, bvalAdd, applyProp, setVelocity, setRadius, setInverse,
      setInvincible, setColor, updateVelocities, updateBaseAngularVelocity,
      updateAngularVelocityAuto, updateAngularVelocityFactor, setAngularVelocity,
      initAvatar, defaultVelocity, defaultRadius, defaultAngularVelocityBase,
      bvalNum, bvalStr, bvalTruthy, bonusSelfFast, bonusSelfSlow, bonusSelfMaster,
      bonusSelfSmall, bonusEnemyBig, bonusEnemyFast, bonusEnemySlow, bonusEnemyInverse,
      bonusEnemyStraightAngle, bonusAllColor, hlog, hpow] <;>
    norm_num [max_def, hlog, hpow]

set_option maxHeartbeats 1000000 in
/-- C3, witness: the restoration applied to the slow-self bonus with
concrete oracle functions. -/
theorem bonusStack_restore_defaults_witness :
    (fun _ : ℚ => (0 : ℚ)) 1 = 0 ∧ (fun _ : ℚ => (1 : ℚ)) 0 = 1 ∧
    bonusSelfSlow 3 ∈ avatarBonuses 3 (157 / 100) "#abc" ∧
    ((stackRemove (fun _ => 1) (fun _ => 0) (fun _ => 0) (fun _ => 1) (bonusSelfSlow 3)
        (stackAdd (fun _ => 1) (fun _ => 0) (fun _ => 0) (fun _ => 1) (bonusSelfSlow 3) []
          (initAvatar 1 "#f00")).1
        (stackAdd (fun _ => 1) (fun _ => 0) (fun _ => 0) (fun _ => 1) (bonusSelfSlow 3) []
          (initAvatar 1 "#f00")).2).1 = [] ∧
      (stackRemove (fun _ => 1) (fun _ => 0) (fun _ => 0) (fun _ => 1) (bonusSelfSlow 3)
        (stackAdd (fun _ => 1) (fun _ => 0) (fun _ => 0) (fun _ => 1) (bonusSelfSlow 3) []
          (initAvatar 1 "#f00")).1
        (stackAdd (fun _ => 1) (fun _ => 0) (fun _ => 0) (fun _ => 1) (bonusSelfSlow 3) []
          (initAvatar 1 "#f00")).2).2.velocity = defaultVelocity ∧
      (stackRemove (fun _ => 1) (fun _ => 0) (fun _ => 0) (fun _ => 1) (bonusSelfSlow 3)
        (stackAdd (fun _ => 1) (fun _ => 0) (fun _ => 0) (fun _ => 1) (bonusSelfSlow 3) []
          (initAvatar 1 "#f00")).1
        (stackAdd (fun _ => 1) (fun _ => 0) (fun _ => 0) (fun _ => 1) (bonusSelfSlow 3) []
          (initAvatar 1 "#f00")).2).2.radius = defaultRadius ∧
      (stackRemove (fun _ => 1) (fun _ => 0) (fun _ => 0) (fun _ => 1) (bonusSelfSlow 3)
        (stackAdd (fun _ => 1) (fun _ => 0) (fun _ => 0) (fun _ => 1) (bonusSelfSlow 3) []
          (initAvatar 1 "#f00")).1
        (stackAdd (fun _ => 1) (fun _ => 0) (fun _ => 0) (fun _ => 1) (bonusSelfSlow 3) []
          (initAvatar 1 "#f00")).2).2.inverse = false ∧
      (stackRemove (fun _ => 1) (fun _ => 0) (fun _ => 0) (fun _ => 1) (bonusSelfSlow 3)
        (stackAdd (fun _ => 1) (fun _ => 0) (fun _ => 0) (fun _ => 1) (bonusSelfSlow 3) []
          (initAvatar 1 "#f00")).1
        (stackAdd (fun _ => 1) (fun _ => 0) (fun _ => 0) (fun _ => 1) (bonusSelfSlow 3) []
          (initAvatar 1 "#f00")).2).2.invincible = false ∧
      (stackRemove (fun _ => 1) (fun _ => 0) (fun _ => 0) (fun _ => 1) (bonusSelfSlow 3)
        (stackAdd (fun _ => 1) (fun _ => 0) (fun _ => 0) (fun _ => 1) (bonusSelfSlow 3) []
          (initAvatar 1 "#f00")).1
        (stackAdd (fun _ => 1) (fun _ => 0) (fun _ => 0) (fun _ => 1) (bonusSelfSlow 3) []
          (initAvatar 1 "#f00")).2).2.color = "#f00" ∧
      (stackRemove (fun _ => 1) (fun _ => 0) (fun _ => 0) (fun _ => 1) (bonusSelfSlow 3)
        (stackAdd (fun _ => 1) (fun _ => 0) (fun _ => 0) (fun _ => 1) (bonusSelfSlow 3) []
          (initAvatar 1 "#f00")).1
        (stackAdd (fun _ => 1) (fun _ => 0) (fun _ => 0) (fun _ => 1) (bonusSelfSlow 3) []
          (initAvatar 1 "#f00")).2).2.directionInLoop = true ∧
      (stackRemove (fun _ => 1) (fun _ => 0) (fun _ => 0) (fun _ => 1) (bonusSelfSlow 3)
        (stackAdd (fun _ => 1) (fun _ => 0) (fun _ => 0) (fun _ => 1) (bonusSelfSlow 3) []
          (initAvatar 1 "#f00")).1
        (stackAdd (fun _ => 1) (fun _ => 0) (fun _ => 0) (fun _ => 1) (bonusSelfSlow 3) []
          (initAvatar 1 "#f00")).2).2.angularVelocityBase = defaultAngularVelocityBase) :=
  ⟨rfl, rfl, by simp [avatarBonuses],
    bonusStack_restore_defaults (fun _ => 1) (fun _ => 0) (fun _ => 0) (fun _ => 1)
      rfl rfl 1 3 "#f00" (157 / 100) "#abc" (bonusSelfSlow 3) (by simp [avatarBonuses])⟩

/-! ## Velocity-components invariant (C6) -/

/-- The spec's kinematic invariant: the cartesian components agree with
`cos(angle)·velocity/1000` and `sin(angle)·velocity/1000` (with `cosF`,
`sinF` abstracting `math.cos` / `math.sin`). -/
def VelInv (cosF sinF : ℚ → ℚ) (a : AvatarState) : Prop :=
  a.velocityX = cosF a.angle * (a.velocity / 1000) ∧
  a.velocityY = sinF a.angle * (a.velocity / 1000)

/-- The angular-velocity bookkeeping of `update_base_angular_velocity`
leaves angle, velocity and the cartesian components untouched. -/
theorem updateBase_preserves (logF : ℚ → ℚ) (a : AvatarState) :
    (updateBaseAngularVelocity logF a).angle = a.angle ∧
    (updateBaseAngularVelocity logF a).velocity = a.velocity ∧
    (updateBaseAngularVelocity logF a).velocityX = a.velocityX ∧
    (updateBaseAngularVelocity logF a).velocityY = a.velocityY := by
  simp only [updateBaseAngularVelocity, updateAngularVelocityAuto,
    updateAngularVelocityFactor, setAngularVelocity]
  split_ifs <;> simp

/-- `update_velocities` establishes the invariant. -/
theorem updateVelocities_establishes (cosF sinF logF : ℚ → ℚ) (a : AvatarState) :
    VelInv cosF sinF (updateVelocities cosF sinF logF a) := by
  obtain ⟨h1, h2, h3, h4⟩ := updateBase_preserves logF
    { a with velocityX := cosF a.angle * (a.velocity / 1000)
             velocityY := sinF a.angle * (a.velocity / 1000) }
  constructor
  · rw [updateVelocities, h3, h1, h2]
  · rw [updateVelocities, h4, h1, h2]

/-- `set_angle` preserves the invariant. -/
theorem setAngle_preserves (cosF sinF logF : ℚ → ℚ) (t : ℚ) (a : AvatarState)
    (h : VelInv cosF sinF a) : VelInv cosF sinF (setAngle cosF sinF logF t a) := by
  rw [setAngle]
  split_ifs
  · exact h
  · exact updateVelocities_establishes cosF sinF logF _

/-- `set_velocity` preserves the invariant. -/
theorem setVelocity_preserves (cosF sinF logF : ℚ → ℚ) (v : ℚ) (a : AvatarState)
    (h : VelInv cosF sinF a) : VelInv cosF sinF (setVelocity cosF sinF logF v a) := by
  rw [setVelocity]
  split_ifs
  · exact h
  · exact updateVelocities_establishes cosF sinF logF _

/-- The frame integration `Avatar.update` preserves the invariant. -/
theorem avatarUpdate_preserves (cosF sinF logF : ℚ → ℚ) (step : ℚ) (a : AvatarState)
    (h : VelInv cosF sinF a) : VelInv cosF sinF (avatarUpdate cosF sinF logF step a) := by
  rw [avatarUpdate]
  split_ifs
  · have hangle : VelInv cosF sinF (updateAngle cosF sinF logF step a) := by
      rw [updateAngle]
      split_ifs
      · exact h
      · exact setAngle_preserves cosF sinF logF _ a h
      · obtain ⟨hh1, hh2⟩ := setAngle_preserves cosF sinF logF (a.angle + a.angularVelocity) a h
        exact ⟨hh1, hh2⟩
    obtain ⟨hh1, hh2⟩ := hangle
    exact ⟨hh1, hh2⟩
  · exact h

/-- A bonus-stack property application preserves the invariant (a
velocity effect re-establishes it through `set_velocity`; every other
property leaves angle, velocity and the components alone). -/
theorem applyProp_preserves (cosF sinF logF pow2F : ℚ → ℚ) (a : AvatarState)
    (p : BonusProp) (v : BVal) (h : VelInv cosF sinF a) :
    VelInv cosF sinF (applyProp cosF sinF logF pow2F a p v) := by
  cases p with
  | velocity => exact setVelocity_preserves cosF sinF logF _ a h
  | radius => exact h
  | inverse =>
    obtain ⟨h1, h2⟩ := h
    rw [applyProp, setInverse]
    split_ifs
    · exact ⟨h1, h2⟩
    · simp only [updateAngularVelocityAuto, updateAngularVelocityFactor, setAngularVelocity]
      split_ifs <;> exact ⟨h1, h2⟩
  | invincible => exact h
  | printing =>
    obtain ⟨h1, h2⟩ := h
    rw [applyProp]
    split_ifs <;> exact ⟨h1, h2⟩
  | color => exact h
  | directionInLoop => exact h
  | angularVelocityBase => exact h

/-- C6, counterexample.  Immediately after `clear()` (the round reset the
claim itself lists as a mutation) the components are zeroed while
`velocity` is reset to 16, so `sqrt(vx² + vy²)·1000 = 0 ≠ 16 = velocity`
and the invariant fails until the next `update_velocities`. -/
theorem velocity_invariant_counterexample :
    Real.sqrt (((clearAvatar (initAvatar 1 "#fff")).velocityX : ℝ) ^ 2
        + ((clearAvatar (initAvatar 1 "#fff")).velocityY : ℝ) ^ 2) * 1000
      ≠ ((clearAvatar (initAvatar 1 "#fff")).velocity : ℝ) := by
  have hx : (clearAvatar (initAvatar 1 "#fff")).velocityX = 0 := rfl
  have hy : (clearAvatar (initAvatar 1 "#fff")).velocityY = 0 := rfl
  have hv : (clearAvatar (initAvatar 1 "#fff")).velocity = 16 := rfl
  rw [hx, hy, hv]
  norm_num

/-- C6, amended.  The component invariant is established by
`update_velocities` and preserved by `set_angle`, `set_velocity`, the
frame update and every bonus-stack application; whenever it holds,
`sqrt(vx² + vy²)·1000 = velocity` exactly (given `cos² + sin² = 1` at the
current angle and a nonnegative velocity).  It does *not* hold right
after `clear()`: the round reset zeroes the components while `velocity`
returns to 16 (see the counterexample), and is only re-established at
the first subsequent velocities update. -/
theorem velocity_invariant (cosF sinF logF pow2F : ℚ → ℚ) (a : AvatarState) :
    VelInv cosF sinF (updateVelocities cosF sinF logF a) ∧
    (∀ t, VelInv cosF sinF a → VelInv cosF sinF (setAngle cosF sinF logF t a)) ∧
    (∀ v, VelInv cosF sinF a → VelInv cosF sinF (setVelocity cosF sinF logF v a)) ∧
    (∀ step, VelInv cosF sinF a → VelInv cosF sinF (avatarUpdate cosF sinF logF step a)) ∧
    (∀ p v, VelInv cosF sinF a → VelInv cosF sinF (applyProp cosF sinF logF pow2F a p v)) ∧
    (VelInv cosF sinF a → cosF a.angle ^ 2 + sinF a.angle ^ 2 = 1 → 0 ≤ a.velocity →
      Real.sqrt ((a.velocityX : ℝ) ^ 2 + (a.velocityY : ℝ) ^ 2) * 1000
        = (a.velocity : ℝ)) := by
  refine ⟨updateVelocities_establishes cosF sinF logF a,
    fun t h => setAngle_preserves cosF sinF logF t a h,
    fun v h => setVelocity_preserves cosF sinF logF v a h,
    fun step h => avatarUpdate_preserves cosF sinF logF step a h,
    fun p v h => applyProp_preserves cosF sinF logF pow2F a p v h,
    ?_⟩
  intro h hpyth hvel
  obtain ⟨h1, h2⟩ := h
  have hx := congrArg (fun q : ℚ => (q : ℝ)) h1
  have hy := congrArg (fun q : ℚ => (q : ℝ)) h2
  push_cast at hx hy
  have hone : ((cosF a.angle : ℚ) : ℝ) ^ 2 + ((sinF a.angle : ℚ) : ℝ) ^ 2 = 1 := by
    exact_mod_cast congrArg (fun q : ℚ => (q : ℝ)) hpyth
  have hvR : (0 : ℝ) ≤ (a.velocity : ℝ) := by exact_mod_cast hvel
  rw [hx, hy]
  have hfact : (((cosF a.angle : ℚ) : ℝ) * ((a.velocity : ℝ) / 1000)) ^ 2
      + (((sinF a.angle : ℚ) : ℝ) * ((a.velocity : ℝ) / 1000)) ^ 2
      = ((a.velocity : ℝ) / 1000) ^ 2 := by
    have : (((cosF a.angle : ℚ) : ℝ) * ((a.velocity : ℝ) / 1000)) ^ 2
        + (((sinF a.angle : ℚ) : ℝ) * ((a.velocity : ℝ) / 1000)) ^ 2
        = (((cosF a.angle : ℚ) : ℝ) ^ 2 + ((sinF a.angle : ℚ) : ℝ) ^ 2)
            * ((a.velocity : ℝ) / 1000) ^ 2 := by ring
    rw [this, hone, one_mul]
  rw [hfact, Real.sqrt_sq (by positivity)]
  ring

/-- C6, witness: the amended invariant applied to a fresh avatar with the
constant oracle pair `cos = 1`, `sin = 0` (satisfying `cos² + sin² = 1`),
showing the square-root identity at the state produced by
`update_velocities`. -/
theorem velocity_invariant_witness :
    VelInv (fun _ => 1) (fun _ => 0)
        (updateVelocities (fun _ => 1) (fun _ => 0) (fun _ => 0) (initAvatar 1 "#fff")) ∧
    Real.sqrt
        (((updateVelocities (fun _ => 1) (fun _ => 0) (fun _ => 0)
              (initAvatar 1 "#fff")).velocityX : ℝ) ^ 2
          + ((updateVelocities (fun _ => 1) (fun _ => 0) (fun _ => 0)
              (initAvatar 1 "#fff")).velocityY : ℝ) ^ 2) * 1000
      = ((updateVelocities (fun _ => 1) (fun _ => 0) (fun _ => 0)
          (initAvatar 1 "#fff")).velocity : ℝ) := by
  have h := velocity_invariant (fun _ => 1) (fun _ => 0) (fun _ => 0) (fun _ => 1)
    (updateVelocities (fun _ => 1) (fun _ => 0) (fun _ => 0) (initAvatar 1 "#fff"))
  have hinv := velocity_invariant (fun _ => 1) (fun _ => 0) (fun _ => 0) (fun _ => 1)
    (initAvatar 1 "#fff")
  refine ⟨hinv.1, ?_⟩
  have hvel : (0 : ℚ) ≤ (updateVelocities (fun _ => 1) (fun _ => 0) (fun _ => 0)
      (initAvatar 1 "#fff")).velocity := by
    obtain ⟨-, h2, -, -⟩ := updateBase_preserves (fun _ => 0)
      { (initAvatar 1 "#fff") with
          velocityX := 1 * ((initAvatar 1 "#fff").velocity / 1000)
          velocityY := 0 * ((initAvatar 1 "#fff").velocity / 1000) }
    rw [updateVelocities]
    rw [h2]
    norm_num [initAvatar, defaultVelocity]
  exact (h.2.2.2.2.2) hinv.1 (by norm_num) hvel

/-! ## Game state and the tick loop (`server/model/Game`, `BaseGame`)

Avatars are kept positionally (the `Collection` insertion order);
`deaths` holds avatar ids with `Collection.add`'s id dedup.  The world
geometry is abstracted by per-avatar oracles: `borderO i a` models
`world.get_bound_intersect(avatar.body, margin)` for the avatar at
position `i` of the list, `killerO i a` the success of
`world.get_body(avatar.body)`, and `postO` the post-collision phase
(`print_manager.test()` plus `bonus_manager.test_catch(avatar)`, which
may flip the game's borderless flag through a caught `BonusGameBorderless`
but never touches liveness or scores — stated as a hypothesis where
needed). -/

/-- The game state observable by the claims about scoring and rounds. -/
structure GameState where
  avatars : List AvatarState
  deaths : List ℕ
  borderless : Bool
  deathInFrame : Bool
  roundWinnerId : Option ℕ
  inRound : Bool
  size : ℚ
  deriving DecidableEq, Repr

/-- `Collection.add` on the `deaths` collection: id-keyed dedup,
appending at the end. -/
def deathsAdd (d : List ℕ) (i : ℕ) : List ℕ :=
  if i ∈ d then d else d ++ [i]

/-- `World.get_opposite`: wrap a border point to the opposite border. -/
def getOpposite (size : ℚ) (p : ℚ × ℚ) : ℚ × ℚ :=
  if p.1 = 0 then (size, p.2)
  else if p.1 = size then (0, p.2)
  else if p.2 = 0 then (p.1, size)
  else if p.2 = size then (p.1, 0)
  else p

/-- `Game.kill`: `die()` then credit the snapshot score (the caller also
records the death and sets the frame flag). -/
def killAvatar (score : ℤ) (a : AvatarState) : AvatarState :=
  addScore score (dieAvatar a)

/-- The oracles a tick consults, all abstracting world geometry,
randomness and the bonus subsystem. -/
structure TickOracles where
  cosF : ℚ → ℚ
  sinF : ℚ → ℚ
  logF : ℚ → ℚ
  borderO : ℕ → AvatarState → Option (ℚ × ℚ)
  killerO : ℕ → AvatarState → Bool
  postO : ℕ → AvatarState → Bool → AvatarState × Bool

/-- The body of `Game.update`'s loop for one avatar: integrate, test the
border (wrap when borderless, kill otherwise), then test trail collision
for vulnerable avatars, and finally — only if still alive — run the
print-manager test and the bonus catch (`postO`).  Returns the updated
avatar, deaths list, borderless flag and death-in-frame flag. -/
def tickOne (o : TickOracles) (size step : ℚ) (bl : Bool) (score : ℤ) (i : ℕ)
    (a : AvatarState) (deaths : List ℕ) (dif : Bool) :
    AvatarState × List ℕ × Bool × Bool :=
  if a.alive then
    let a1 := avatarUpdate o.cosF o.sinF o.logF step a
    let r :=
      match o.borderO i a1 with
      | some border =>
          if bl then (setPosition (getOpposite size border).1 (getOpposite size border).2 a1,
            deaths, dif)
          else (killAvatar score a1, deathsAdd deaths a1.id, true)
      | none =>
          if a1.invincible = false && o.killerO i a1 then
            (killAvatar score a1, deathsAdd deaths a1.id, true)
          else (a1, deaths, dif)
    if r.1.alive then
      let p := o.postO i r.1 bl
      (p.1, r.2.1, p.2, r.2.2)
    else (r.1, r.2.1, bl, r.2.2)
  else (a, deaths, bl, dif)

/-- The avatar loop of `Game.update`, processing the avatars in order
with the tick's snapshot score fixed. -/
def gameTickAux (o : TickOracles) (size step : ℚ) (score : ℤ) :
    ℕ → List AvatarState → List ℕ → Bool → Bool →
      List AvatarState × List ℕ × Bool × Bool
  | _, [], deaths, bl, dif => ([], deaths, bl, dif)
  | i, a :: rest, deaths, bl, dif =>
      let r := tickOne o size step bl score i a deaths dif
      let rest2 := gameTickAux o size step score (i + 1) rest r.2.1 r.2.2.1 r.2.2.2
      (r.1 :: rest2.1, rest2.2)

/-- `Game.update` without the trailing round-end check: snapshot
`score = deaths.count`, reset `death_in_frame`, process every avatar. -/
def gameUpdateLoop (o : TickOracles) (step : ℚ) (g : GameState) : GameState :=
  let r := gameTickAux o g.size step (g.deaths.length : ℤ) 0 g.avatars g.deaths
    g.borderless false
  { g with avatars := r.1, deaths := r.2.1, borderless := r.2.2.1, deathInFrame := r.2.2.2 }

/-- `Game.resolve_scores`: pick the winner (the lone avatar if only one
is registered, else the first alive avatar), award it
`max(playerCount − 1, 1)` and mark it `roundWinner`, then commit every
avatar's round score. -/
def gameResolveScores (g : GameState) : GameState :=
  let winner : Option AvatarState :=
    if g.avatars.length = 1 then g.avatars.head?
    else g.avatars.find? (fun a => a.alive)
  match winner with
  | some w =>
      { g with
        avatars := (g.avatars.map (fun a =>
          if a.id = w.id then addScore (max ((g.avatars.length : ℤ) - 1) 1) a else a)).map
            resolveScore
        roundWinnerId := some w.id }
  | none => { g with avatars := g.avatars.map resolveScore }

/-- `BaseGame.end_round` + `Game.on_round_end`: leave the round and
resolve the scores. -/
def endRound (g : GameState) : GameState :=
  if g.inRound then gameResolveScores { g with inRound := false } else g

/-- `Game.check_round_end`: end the round as soon as at most one avatar
is alive. -/
def checkRoundEnd (g : GameState) : GameState :=
  if g.inRound && (g.avatars.filter (fun a => a.alive)).length ≤ 1 then endRound g else g

/-- `Game.update` in full: the avatar loop, then the round-end check when
a death occurred this frame. -/
def gameUpdate (o : TickOracles) (step : ℚ) (g : GameState) : GameState :=
  let g2 := gameUpdateLoop o step g
  if g2.deathInFrame then checkRoundEnd g2 else g2

/-- The placement loop of `Game.on_round_new`: present avatars receive a
random free position and angle (`posF`, `angF` are the sampling oracles);
non-present avatars are pre-seeded into `deaths`. -/
def roundNewPlace (o : TickOracles) (posF : ℕ → ℚ × ℚ) (angF : ℕ → ℚ) :
    ℕ → List AvatarState → List ℕ → List AvatarState × List ℕ
  | _, [], deaths => ([], deaths)
  | i, a :: rest, deaths =>
      if a.present then
        let a2 := setAngle o.cosF o.sinF o.logF (angF i) (setPosition (posF i).1 (posF i).2 a)
        let r := roundNewPlace o posF angF (i + 1) rest deaths
        (a2 :: r.1, r.2)
      else
        let r := roundNewPlace o posF angF (i + 1) rest (deathsAdd deaths a.id)
        (a :: r.1, r.2)

/-- `Game.on_round_new` (including `BaseGame.on_round_new`): reset
borderless, `clear()` every present avatar, clear the winner and the
deaths, then place the avatars, pre-seeding absent ones into `deaths`. -/
def gameRoundNew (o : TickOracles) (posF : ℕ → ℚ × ℚ) (angF : ℕ → ℚ)
    (g : GameState) : GameState :=
  let cleared := g.avatars.map (fun a => if a.present then clearAvatar a else a)
  let placed := roundNewPlace o posF angF 0 cleared []
  { g with avatars := placed.1, deaths := placed.2, borderless := false,
           roundWinnerId := none, deathInFrame := g.deathInFrame }

/-! ## The tick credits the snapshot score (C1) -/

/-- The frame integration touches only kinematic fields: liveness, the
scores, the id, invincibility and presence are unchanged. -/
theorem avatarUpdate_fields (cosF sinF logF : ℚ → ℚ) (step : ℚ) (a : AvatarState) :
    (avatarUpdate cosF sinF logF step a).alive = a.alive ∧
    (avatarUpdate cosF sinF logF step a).roundScore = a.roundScore ∧
    (avatarUpdate cosF sinF logF step a).score = a.score ∧
    (avatarUpdate cosF sinF logF step a).id = a.id ∧
    (avatarUpdate cosF sinF logF step a).invincible = a.invincible := by
  simp only [avatarUpdate, updateAngle, updatePosition, setPosition, setAngle,
    updateVelocities, updateBaseAngularVelocity, updateAngularVelocityAuto,
    updateAngularVelocityFactor, setAngularVelocity]
  split_ifs <;> simp

/-- The hypothesis on the post-collision phase (`print_manager.test` and
`bonus_manager.test_catch`): no effect on liveness, scores or the id.
This is what the code guarantees — printing toggles and bonus-stack
applications never write those fields. -/
def PostPreserves (o : TickOracles) : Prop :=
  ∀ j b bl, ((o.postO j b bl).1.alive = b.alive ∧
    (o.postO j b bl).1.roundScore = b.roundScore ∧
    (o.postO j b bl).1.score = b.score ∧
    (o.postO j b bl).1.id = b.id)

/-- `kill` through the score fields. -/
theorem killAvatar_fields (s : ℤ) (a : AvatarState) :
    (killAvatar s a).alive = false ∧ (killAvatar s a).roundScore = a.roundScore + s ∧
    (killAvatar s a).score = a.score ∧ (killAvatar s a).id = a.id := by
  simp [killAvatar, addScore, setRoundScore, dieAvatar]

/-- `set_position` through the score fields. -/
theorem setPosition_fields (px py : ℚ) (a : AvatarState) :
    (setPosition px py a).alive = a.alive ∧ (setPosition px py a).roundScore = a.roundScore ∧
    (setPosition px py a).score = a.score ∧ (setPosition px py a).id = a.id := by
  simp [setPosition]

/-- What one loop iteration returns as the avatar, for a live avatar,
assuming the post-collision phase preserves liveness: the wrapped avatar
after its post phase, or the killed avatar, or the surviving avatar after
its post phase. -/
theorem tickOne_result (o : TickOracles) (size step : ℚ) (bl : Bool) (score : ℤ)
    (i : ℕ) (a : AvatarState) (deaths : List ℕ) (dif : Bool)
    (ha : a.alive = true) :
    (tickOne o size step bl score i a deaths dif).1 =
      match o.borderO i (avatarUpdate o.cosF o.sinF o.logF step a) with
      | some border =>
          if bl then
            (o.postO i (setPosition (getOpposite size border).1 (getOpposite size border).2
              (avatarUpdate o.cosF o.sinF o.logF step a)) bl).1
          else killAvatar score (avatarUpdate o.cosF o.sinF o.logF step a)
      | none =>
          if (avatarUpdate o.cosF o.sinF o.logF step a).invincible = false
              && o.killerO i (avatarUpdate o.cosF o.sinF o.logF step a) then
            killAvatar score (avatarUpdate o.cosF o.sinF o.logF step a)
          else (o.postO i (avatarUpdate o.cosF o.sinF o.logF step a) bl).1 := by
  obtain ⟨hu1, hu2, hu3, hu4, hu5⟩ := avatarUpdate_fields o.cosF o.sinF o.logF step a
  rw [tickOne, if_pos ha]
  cases hb : o.borderO i (avatarUpdate o.cosF o.sinF o.logF step a) with
  | some border =>
    by_cases hbl : bl
    · have halive : (setPosition (getOpposite size border).1 (getOpposite size border).2
          (avatarUpdate o.cosF o.sinF o.logF step a)).alive = true := by
        rw [(setPosition_fields _ _ _).1, hu1, ha]
      simp only [hb, if_pos hbl, halive, if_true]
    · have hdead : (killAvatar score (avatarUpdate o.cosF o.sinF o.logF step a)).alive
          = false := (killAvatar_fields _ _).1
      simp only [hb, if_neg hbl, hdead, Bool.false_eq_true, if_false]
  | none =>
    cases hc : ((avatarUpdate o.cosF o.sinF o.logF step a).invincible = false
        && o.killerO i (avatarUpdate o.cosF o.sinF o.logF step a)) with
    | true =>
      have hdead : (killAvatar score (avatarUpdate o.cosF o.sinF o.logF step a)).alive
          = false := (killAvatar_fields _ _).1
      simp only [hb, hc, if_true, hdead, Bool.false_eq_true, if_false]
    | false =>
      have halive : (avatarUpdate o.cosF o.sinF o.logF step a).alive = true := by
        rw [hu1, ha]
      simp only [hb, hc, Bool.false_eq_true, if_false, halive, if_true]

/-- One loop iteration, seen through the score fields: an avatar that
enters alive and leaves dead was killed by this very iteration and had
exactly the snapshot `score` added to its round score; a dead avatar is
left alone; the total score and id never change. -/
theorem tickOne_fields (o : TickOracles) (size step : ℚ) (bl : Bool) (score : ℤ)
    (i : ℕ) (a : AvatarState) (deaths : List ℕ) (dif : Bool)
    (hpost : PostPreserves o) :
    ((tickOne o size step bl score i a deaths dif).1.alive = false → a.alive = true →
      (tickOne o size step bl score i a deaths dif).1.roundScore
        = a.roundScore + score) ∧
    (a.alive = false → (tickOne o size step bl score i a deaths dif).1 = a) ∧
    ((tickOne o size step bl score i a deaths dif).1.alive = true →
      (tickOne o size step bl score i a deaths dif).1.roundScore = a.roundScore) ∧
    (tickOne o size step bl score i a deaths dif).1.score = a.score ∧
    (tickOne o size step bl score i a deaths dif).1.id = a.id := by
  obtain ⟨hu1, hu2, hu3, hu4, hu5⟩ := avatarUpdate_fields o.cosF o.sinF o.logF step a
  by_cases ha : a.alive
  · rw [tickOne_result o size step bl score i a deaths dif ha]
    cases hb : o.borderO i (avatarUpdate o.cosF o.sinF o.logF step a) with
    | some border =>
      by_cases hbl : bl
      · obtain ⟨hp1, hp2, hp3, hp4⟩ :=
          hpost i (setPosition (getOpposite size border).1 (getOpposite size border).2
            (avatarUpdate o.cosF o.sinF o.logF step a)) bl
        obtain ⟨hs1, hs2, hs3, hs4⟩ := setPosition_fields (getOpposite size border).1
          (getOpposite size border).2 (avatarUpdate o.cosF o.sinF o.logF step a)
        simp only [if_pos hbl]
        refine ⟨?_, ?_, ?_, ?_⟩
        · intro hdead _
          rw [hp1, hs1, hu1, ha] at hdead
          exact absurd hdead (by simp)
        · intro hdead
          rw [ha] at hdead
          exact absurd hdead (by simp)
        · intro _
          rw [hp2, hs2, hu2]
        · exact ⟨by rw [hp3, hs3, hu3], by rw [hp4, hs4, hu4]⟩
      · obtain ⟨hk1, hk2, hk3, hk4⟩ :=
          killAvatar_fields score (avatarUpdate o.cosF o.sinF o.logF step a)
        simp only [if_neg hbl]
        refine ⟨?_, ?_, ?_, ?_⟩
        · intro _ _
          rw [hk2, hu2]
        · intro hdead
          rw [ha] at hdead
          exact absurd hdead (by simp)
        · intro halive
          rw [hk1] at halive
          exact absurd halive (by simp)
        · exact ⟨by rw [hk3, hu3], by rw [hk4, hu4]⟩
    | none =>
      cases hc : ((avatarUpdate o.cosF o.sinF o.logF step a).invincible = false
          && o.killerO i (avatarUpdate o.cosF o.sinF o.logF step a)) with
      | true =>
        obtain ⟨hk1, hk2, hk3, hk4⟩ :=
          killAvatar_fields score (avatarUpdate o.cosF o.sinF o.logF step a)
        simp only [if_true]
        refine ⟨?_, ?_, ?_, ?_⟩
        · intro _ _
          rw [hk2, hu2]
        · intro hdead
          rw [ha] at hdead
          exact absurd hdead (by simp)
        · intro halive
          rw [hk1] at halive
          exact absurd halive (by simp)
        · exact ⟨by rw [hk3, hu3], by rw [hk4, hu4]⟩
      | false =>
        obtain ⟨hp1, hp2, hp3, hp4⟩ :=
          hpost i (avatarUpdate o.cosF o.sinF o.logF step a) bl
        simp only [Bool.false_eq_true, if_false]
        refine ⟨?_, ?_, ?_, ?_⟩
        · intro hdead _
          rw [hp1, hu1, ha] at hdead
          exact absurd hdead (by simp)
        · intro hdead
          rw [ha] at hdead
          exact absurd hdead (by simp)
        · intro _
          rw [hp2, hu2]
        · exact ⟨by rw [hp3, hu3], by rw [hp4, hu4]⟩
  · have ha2 : a.alive = false := Bool.eq_false_iff.mpr ha
    rw [tickOne, if_neg ha]
    exact ⟨fun _ h => absurd h (by simp [ha2]), fun _ => rfl, fun _ => rfl, rfl, rfl⟩

/-- The avatar loop acts positionally: the result has the same length,
and each output avatar is the `tickOne` image of the input avatar at the
same position (under the deaths/borderless/frame-flag context its turn
happened to see). -/
theorem gameTickAux_spec (o : TickOracles) (size step : ℚ) (score : ℤ) :
    ∀ (l : List AvatarState) (i : ℕ) (deaths : List ℕ) (bl dif : Bool),
      (gameTickAux o size step score i l deaths bl dif).1.length = l.length ∧
      ∀ (j : ℕ) (hj : j < l.length)
        (hj2 : j < (gameTickAux o size step score i l deaths bl dif).1.length),
        ∃ bl2 deaths2 dif2,
          (gameTickAux o size step score i l deaths bl dif).1.get ⟨j, hj2⟩
            = (tickOne o size step bl2 score (i + j) (l.get ⟨j, hj⟩) deaths2 dif2).1 := by
  intro l
  induction l with
  | nil =>
    intro i deaths bl dif
    exact ⟨rfl, fun j hj _ => absurd hj (by simp)⟩
  | cons a rest ih =>
    intro i deaths bl dif
    constructor
    · simp only [gameTickAux, List.length_cons]
      rw [(ih (i + 1) (tickOne o size step bl score i a deaths dif).2.1
        (tickOne o size step bl score i a deaths dif).2.2.1
        (tickOne o size step bl score i a deaths dif).2.2.2).1]
    · intro j hj hj2
      cases j with
      | zero =>
        exact ⟨bl, deaths, dif, rfl⟩
      | succ k =>
        have hk : k < rest.length := by
          simpa using hj
        obtain ⟨h1, h2⟩ := ih (i + 1) (tickOne o size step bl score i a deaths dif).2.1
          (tickOne o size step bl score i a deaths dif).2.2.1
          (tickOne o size step bl score i a deaths dif).2.2.2
        have hk2 : k < (gameTickAux o size step score (i + 1) rest
            (tickOne o size step bl score i a deaths dif).2.1
            (tickOne o size step bl score i a deaths dif).2.2.1
            (tickOne o size step bl score i a deaths dif).2.2.2).1.length := by
          rw [h1]
          exact hk
        obtain ⟨bl2, deaths2, dif2, heq⟩ := h2 k hk hk2
        refine ⟨bl2, deaths2, dif2, ?_⟩
        have hstep : (gameTickAux o size step score i (a :: rest) deaths bl dif).1.get
            ⟨k + 1, hj2⟩
            = (gameTickAux o size step score (i + 1) rest
                (tickOne o size step bl score i a deaths dif).2.1
                (tickOne o size step bl score i a deaths dif).2.2.1
                (tickOne o size step bl score i a deaths dif).2.2.2).1.get ⟨k, hk2⟩ := rfl

        rw [hstep, heq]
        have hidx : i + 1 + k = i + (k + 1) := by omega
        rw [hidx]
        rfl

/-- `set_angle` touches only kinematic fields. -/
theorem setAngle_fields (cosF sinF logF : ℚ → ℚ) (t : ℚ) (a : AvatarState) :
    (setAngle cosF sinF logF t a).roundScore = a.roundScore ∧
    (setAngle cosF sinF logF t a).score = a.score ∧
    (setAngle cosF sinF logF t a).alive = a.alive ∧
    (setAngle cosF sinF logF t a).id = a.id := by
  simp only [setAngle, updateVelocities, updateBaseAngularVelocity,
    updateAngularVelocityAuto, updateAngularVelocityFactor, setAngularVelocity]
  split_ifs <;> simp

/-- The placement loop keeps the avatar count and each avatar's round
score, and adds only the ids of absent avatars to `deaths`. -/
theorem roundNewPlace_spec (o : TickOracles) (posF : ℕ → ℚ × ℚ) (angF : ℕ → ℚ) :
    ∀ (l : List AvatarState) (i : ℕ) (deaths : List ℕ),
      (roundNewPlace o posF angF i l deaths).1.length = l.length ∧
      ((∀ a ∈ l, a.present = true) → (roundNewPlace o posF angF i l deaths).2 = deaths) ∧
      ∀ (j : ℕ) (hj : j < l.length)
        (hj2 : j < (roundNewPlace o posF angF i l deaths).1.length),
        ((roundNewPlace o posF angF i l deaths).1.get ⟨j, hj2⟩).roundScore
          = (l.get ⟨j, hj⟩).roundScore := by
  intro l
  induction l with
  | nil =>
    intro i deaths
    exact ⟨rfl, fun _ => rfl, fun j hj _ => absurd hj (by simp)⟩
  | cons a rest ih =>
    intro i deaths
    by_cases hp : a.present = true
    · have hunfold : roundNewPlace o posF angF i (a :: rest) deaths =
          (setAngle o.cosF o.sinF o.logF (angF i)
              (setPosition (posF i).1 (posF i).2 a) ::
            (roundNewPlace o posF angF (i + 1) rest deaths).1,
           (roundNewPlace o posF angF (i + 1) rest deaths).2) := by
        simp only [roundNewPlace, if_pos hp]
      obtain ⟨h1, h2, h3⟩ := ih (i + 1) deaths
      refine ⟨?_, ?_, ?_⟩
      · rw [hunfold]
        simp only [List.length_cons, h1]
      · intro hall
        rw [hunfold]
        exact h2 (fun b hb => hall b (List.mem_cons_of_mem a hb))
      · intro j hj hj2
        have hl1 : (roundNewPlace o posF angF i (a :: rest) deaths).1
            = setAngle o.cosF o.sinF o.logF (angF i)
                (setPosition (posF i).1 (posF i).2 a) ::
              (roundNewPlace o posF angF (i + 1) rest deaths).1 := by
          rw [hunfold]
        cases j with
        | zero =>
          rw [List.get_of_eq hl1 ⟨0, hj2⟩]
          show (setAngle o.cosF o.sinF o.logF (angF i)
              (setPosition (posF i).1 (posF i).2 a)).roundScore = a.roundScore
          rw [(setAngle_fields _ _ _ _ _).1, (setPosition_fields _ _ _).2.1]
        | succ k =>
          have hk : k < rest.length := by simpa using hj
          have hk2 : k < (roundNewPlace o posF angF (i + 1) rest deaths).1.length := by
            rw [h1]
            exact hk
          rw [List.get_of_eq hl1 ⟨k + 1, hj2⟩]
          exact h3 k hk hk2
    · have hunfold : roundNewPlace o posF angF i (a :: rest) deaths =
          (a :: (roundNewPlace o posF angF (i + 1) rest (deathsAdd deaths a.id)).1,
           (roundNewPlace o posF angF (i + 1) rest (deathsAdd deaths a.id)).2) := by
        simp only [roundNewPlace, if_neg hp]
      obtain ⟨h1, h2, h3⟩ := ih (i + 1) (deathsAdd deaths a.id)
      refine ⟨?_, ?_, ?_⟩
      · rw [hunfold]
        simp only [List.length_cons, h1]
      · intro hall
        exact absurd (hall a (List.mem_cons_self a rest)) hp
      · intro j hj hj2
        have hl1 : (roundNewPlace o posF angF i (a :: rest) deaths).1
            = a :: (roundNewPlace o posF angF (i + 1) rest (deathsAdd deaths a.id)).1 := by
          rw [hunfold]
        cases j with
        | zero =>
          rw [List.get_of_eq hl1 ⟨0, hj2⟩]
          rfl
        | succ k =>
          have hk : k < rest.length := by simpa using hj
          have hk2 : k < (roundNewPlace o posF angF (i + 1) rest
              (deathsAdd deaths a.id)).1.length := by
            rw [h1]
            exact hk
          rw [List.get_of_eq hl1 ⟨k + 1, hj2⟩]
          exact h3 k hk hk2

/-- C1, amended.  Each tick snapshots `score = deaths.count` before the
avatar loop and every avatar killed during the loop — by border or by
collision — has exactly that snapshot added to its round score, so all
same-tick victims are credited the same amount.  At a round start where
*every registered avatar is present*, `deaths` starts empty and all round
scores are zero, so two avatars dying in the first tick are both credited
0.  (When an absent avatar exists it is pre-seeded into `deaths` at round
start and first-tick victims are credited that count instead — see the
counterexample.) -/
theorem tick_snapshot_credit (o : TickOracles) (step : ℚ) (g : GameState)
    (hpost : PostPreserves o) :
    (gameUpdateLoop o step g).avatars.length = g.avatars.length ∧
    (∀ (j : ℕ) (hj : j < g.avatars.length)
        (hj2 : j < (gameUpdateLoop o step g).avatars.length),
      (g.avatars.get ⟨j, hj⟩).alive = true →
      ((gameUpdateLoop o step g).avatars.get ⟨j, hj2⟩).alive = false →
      ((gameUpdateLoop o step g).avatars.get ⟨j, hj2⟩).roundScore
        = (g.avatars.get ⟨j, hj⟩).roundScore + (g.deaths.length : ℤ)) ∧
    (∀ (posF : ℕ → ℚ × ℚ) (angF : ℕ → ℚ),
      (∀ a ∈ g.avatars, a.present = true) →
      (gameRoundNew o posF angF g).deaths = [] ∧
      ∀ (j : ℕ) (hj2 : j < (gameRoundNew o posF angF g).avatars.length),
        ((gameRoundNew o posF angF g).avatars.get ⟨j, hj2⟩).roundScore = 0) := by
  obtain ⟨hlen, hget⟩ := gameTickAux_spec o g.size step (g.deaths.length : ℤ)
    g.avatars 0 g.deaths g.borderless false
  refine ⟨hlen, ?_, ?_⟩
  · intro j hj hj2 halive hdead
    obtain ⟨bl2, deaths2, dif2, heq⟩ := hget j hj hj2
    have hf := tickOne_fields o g.size step bl2 (g.deaths.length : ℤ) (0 + j)
      (g.avatars.get ⟨j, hj⟩) deaths2 dif2 hpost
    have hsame : (gameUpdateLoop o step g).avatars.get ⟨j, hj2⟩
        = (gameTickAux o g.size step (g.deaths.length : ℤ) 0 g.avatars g.deaths
            g.borderless false).1.get ⟨j, hj2⟩ := rfl
    rw [hsame] at hdead ⊢
    rw [heq] at hdead ⊢
    exact hf.1 hdead halive
  · intro posF angF hall
    have hcleared : ∀ a ∈ g.avatars.map (fun a =>
        if a.present = true then clearAvatar a else a), a.present = true := by
      intro b hb
      rw [List.mem_map] at hb
      obtain ⟨a, ha, rfl⟩ := hb
      rw [if_pos (hall a ha)]
      exact hall a ha
    obtain ⟨hp1, hp2, hp3⟩ := roundNewPlace_spec o posF angF
      (g.avatars.map (fun a => if a.present = true then clearAvatar a else a)) 0 []
    constructor
    · exact hp2 hcleared
    · intro j hj2
      have hAv : (gameRoundNew o posF angF g).avatars
          = (roundNewPlace o posF angF 0 (g.avatars.map (fun a =>
              if a.present = true then clearAvatar a else a)) []).1 := rfl
      have hjm : j < (g.avatars.map (fun a =>
          if a.present = true then clearAvatar a else a)).length := by
        rw [← hp1, ← hAv]
        exact hj2
      have hplen : j < (roundNewPlace o posF angF 0 (g.avatars.map (fun a =>
          if a.present = true then clearAvatar a else a)) []).1.length := by
        rw [hp1]
        exact hjm
      have hjg : j < g.avatars.length := by
        rw [List.length_map] at hjm
        exact hjm
      have hfin : ((g.avatars.map (fun a =>
          if a.present = true then clearAvatar a else a)).get ⟨j, hjm⟩).roundScore = 0 := by
        rw [List.get_map]
        rw [if_pos (hall (g.avatars.get ⟨j, hjg⟩) (List.get_mem _ _ _))]
        rfl
      rw [List.get_of_eq hAv ⟨j, hj2⟩]
      exact (hp3 j hjm hplen).trans hfin

/-- C1, counterexample.  In a game whose third registered avatar is not
present, `on_round_new` pre-seeds that avatar into `deaths`, so the first
tick's snapshot is 1 and the two present avatars — both alive at round
start and both dying in this very first tick at the border — are each
credited 1, not the 0 the claim promises. -/
theorem tick_snapshot_credit_counterexample :
    ((gameRoundNew
        ⟨fun _ => 1, fun _ => 0, fun _ => 0,
          fun i _ => if i < 2 then some (0, 5) else none,
          fun _ _ => false, fun _ a bl => (a, bl)⟩
        (fun _ => (5, 5)) (fun _ => 1)
        ⟨[initAvatar 1 "#a", initAvatar 2 "#b",
          { initAvatar 3 "#c" with present := false }],
         [], false, false, none, true, 100⟩).deaths = [3]) ∧
    ((gameRoundNew
        ⟨fun _ => 1, fun _ => 0, fun _ => 0,
          fun i _ => if i < 2 then some (0, 5) else none,
          fun _ _ => false, fun _ a bl => (a, bl)⟩
        (fun _ => (5, 5)) (fun _ => 1)
        ⟨[initAvatar 1 "#a", initAvatar 2 "#b",
          { initAvatar 3 "#c" with present := false }],
         [], false, false, none, true, 100⟩).avatars.map
        (fun a => (a.alive, a.roundScore)) = [(true, 0), (true, 0), (true, 0)]) ∧
    ((gameUpdateLoop
        ⟨fun _ => 1, fun _ => 0, fun _ => 0,
          fun i _ => if i < 2 then some (0, 5) else none,
          fun _ _ => false, fun _ a bl => (a, bl)⟩
        1
        (gameRoundNew
          ⟨fun _ => 1, fun _ => 0, fun _ => 0,
            fun i _ => if i < 2 then some (0, 5) else none,
            fun _ _ => false, fun _ a bl => (a, bl)⟩
          (fun _ => (5, 5)) (fun _ => 1)
          ⟨[initAvatar 1 "#a", initAvatar 2 "#b",
            { initAvatar 3 "#c" with present := false }],
           [], false, false, none, true, 100⟩)).avatars.map
        (fun a => (a.alive, a.roundScore))
      = [(false, 1), (false, 1), (true, 0)]) ∧
    (1 : ℤ) ≠ 0 := by
  refine ⟨by decide, by decide, by decide, by decide⟩

/-- C1, witness: the snapshot-credit theorem applied to a two-player game
whose avatars are all present, with a trivial post-collision oracle. -/
theorem tick_snapshot_credit_witness :
    PostPreserves
      ⟨fun _ => 1, fun _ => 0, fun _ => 0, fun _ _ => none,
        fun _ _ => false, fun _ a bl => (a, bl)⟩ ∧
    ((gameUpdateLoop
        ⟨fun _ => 1, fun _ => 0, fun _ => 0, fun _ _ => none,
          fun _ _ => false, fun _ a bl => (a, bl)⟩ 1
        ⟨[initAvatar 1 "#a", initAvatar 2 "#b"], [], false, false, none, true,
          100⟩).avatars.length
      = (⟨[initAvatar 1 "#a", initAvatar 2 "#b"], [], false, false, none, true,
          100⟩ : GameState).avatars.length ∧
    (∀ (j : ℕ)
        (hj : j < (⟨[initAvatar 1 "#a", initAvatar 2 "#b"], [], false, false, none, true,
          100⟩ : GameState).avatars.length)
        (hj2 : j < (gameUpdateLoop
          ⟨fun _ => 1, fun _ => 0, fun _ => 0, fun _ _ => none,
            fun _ _ => false, fun _ a bl => (a, bl)⟩ 1
          ⟨[initAvatar 1 "#a", initAvatar 2 "#b"], [], false, false, none, true,
            100⟩).avatars.length),
      ((⟨[initAvatar 1 "#a", initAvatar 2 "#b"], [], false, false, none, true,
          100⟩ : GameState).avatars.get ⟨j, hj⟩).alive = true →
      ((gameUpdateLoop
          ⟨fun _ => 1, fun _ => 0, fun _ => 0, fun _ _ => none,
            fun _ _ => false, fun _ a bl => (a, bl)⟩ 1
          ⟨[initAvatar 1 "#a", initAvatar 2 "#b"], [], false, false, none, true,
            100⟩).avatars.get ⟨j, hj2⟩).alive = false →
      ((gameUpdateLoop
          ⟨fun _ => 1, fun _ => 0, fun _ => 0, fun _ _ => none,
            fun _ _ => false, fun _ a bl => (a, bl)⟩ 1
          ⟨[initAvatar 1 "#a", initAvatar 2 "#b"], [], false, false, none, true,
            100⟩).avatars.get ⟨j, hj2⟩).roundScore
        = ((⟨[initAvatar 1 "#a", initAvatar 2 "#b"], [], false, false, none, true,
            100⟩ : GameState).avatars.get ⟨j, hj⟩).roundScore
          + (((⟨[initAvatar 1 "#a", initAvatar 2 "#b"], [], false, false, none, true,
              100⟩ : GameState).deaths.length : ℤ))) ∧
    (∀ (posF : ℕ → ℚ × ℚ) (angF : ℕ → ℚ),
      (∀ a ∈ (⟨[initAvatar 1 "#a", initAvatar 2 "#b"], [], false, false, none, true,
          100⟩ : GameState).avatars, a.present = true) →
      (gameRoundNew
        ⟨fun _ => 1, fun _ => 0, fun _ => 0, fun _ _ => none,
          fun _ _ => false, fun _ a bl => (a, bl)⟩ posF angF
        ⟨[initAvatar 1 "#a", initAvatar 2 "#b"], [], false, false, none, true,
          100⟩).deaths = [] ∧
      ∀ (j : ℕ) (hj2 : j < (gameRoundNew
          ⟨fun _ => 1, fun _ => 0, fun _ => 0, fun _ _ => none,
            fun _ _ => false, fun _ a bl => (a, bl)⟩ posF angF
          ⟨[initAvatar 1 "#a", initAvatar 2 "#b"], [], false, false, none, true,
            100⟩).avatars.length),
        ((gameRoundNew
          ⟨fun _ => 1, fun _ => 0, fun _ => 0, fun _ _ => none,
            fun _ _ => false, fun _ a bl => (a, bl)⟩ posF angF
          ⟨[initAvatar 1 "#a", initAvatar 2 "#b"], [], false, false, none, true,
            100⟩).avatars.get ⟨j, hj2⟩).roundScore = 0)) :=
  ⟨fun _ _ _ => ⟨rfl, rfl, rfl, rfl⟩,
    tick_snapshot_credit
      ⟨fun _ => 1, fun _ => 0, fun _ => 0, fun _ _ => none,
        fun _ _ => false, fun _ a bl => (a, bl)⟩ 1
      ⟨[initAvatar 1 "#a", initAvatar 2 "#b"], [], false, false, none, true, 100⟩
      (fun _ _ _ => ⟨rfl, rfl, rfl, rfl⟩)⟩

/-! ## Round-end score resolution (C4) -/

/-- `Collection.match(alive)` returns the unique alive avatar when there
is exactly one. -/
theorem find_unique_alive :
    ∀ (l : List AvatarState) (j0 : ℕ) (hj0 : j0 < l.length),
      (l.get ⟨j0, hj0⟩).alive = true →
      (∀ (k : ℕ) (hk : k < l.length), k ≠ j0 → (l.get ⟨k, hk⟩).alive = false) →
      l.find? (fun a => a.alive) = some (l.get ⟨j0, hj0⟩) := by
  intro l
  induction l with
  | nil =>
    intro j0 hj0
    exact absurd hj0 (by simp)
  | cons a rest ih =>
    intro j0 hj0 halive hothers
    cases j0 with
    | zero =>
      have ha : a.alive = true := halive
      rw [List.find?_cons_of_pos _ (by simpa using ha)]
      rfl
    | succ m =>
      have ha : a.alive = false := hothers 0 (by simp) (by omega)
      rw [List.find?_cons_of_neg _ (by simpa using ha)]
      have hm : m < rest.length := by simpa using hj0
      exact ih m hm halive (fun k hk hkm =>
        hothers (k + 1) (by simpa using hk) (by omega))

/-- The winner expression of `resolve_scores` picks the unique survivor
(also when the game has a single registered avatar). -/
theorem winner_eq (l : List AvatarState) (j0 : ℕ) (hj0 : j0 < l.length)
    (halive : (l.get ⟨j0, hj0⟩).alive = true)
    (hothers : ∀ (k : ℕ) (hk : k < l.length), k ≠ j0 → (l.get ⟨k, hk⟩).alive = false) :
    (if l.length = 1 then l.head? else l.find? (fun a => a.alive))
      = some (l.get ⟨j0, hj0⟩) := by
  by_cases hlen : l.length = 1
  · rw [if_pos hlen]
    cases l with
    | nil => exact absurd hlen (by simp)
    | cons a rest =>
      have hj00 : j0 = 0 := by
        have := hj0
        rw [hlen] at this
        omega
      subst hj00
      rfl
  · rw [if_neg hlen]
    exact find_unique_alive l j0 hj0 halive hothers

/-- Positions with equal ids coincide when the id list has no
duplicates. -/
theorem id_injective (l : List AvatarState)
    (hnodup : (l.map (fun a => a.id)).Nodup)
    (k1 k2 : ℕ) (hk1 : k1 < l.length) (hk2 : k2 < l.length)
    (heq : (l.get ⟨k1, hk1⟩).id = (l.get ⟨k2, hk2⟩).id) : k1 = k2 := by
  have hinj := List.nodup_iff_injective_get.mp hnodup
  have hlen : (l.map (fun a => a.id)).length = l.length := by simp
  have h1 : (l.map (fun a => a.id)).get ⟨k1, by rw [hlen]; exact hk1⟩
      = (l.get ⟨k1, hk1⟩).id := by
    rw [List.get_map]
  have h2 : (l.map (fun a => a.id)).get ⟨k2, by rw [hlen]; exact hk2⟩
      = (l.get ⟨k2, hk2⟩).id := by
    rw [List.get_map]
  have := @hinj ⟨k1, by rw [hlen]; exact hk1⟩ ⟨k2, by rw [hlen]; exact hk2⟩
    (by rw [h1, h2, heq])
  exact congrArg Fin.val this

/-- C4.  When exactly one avatar is alive at round end (position `j0`),
`resolve_scores` marks it as the round winner, awards it
`max(playerCount − 1, 1)` on top of its round score, and no other avatar
receives the award; every avatar then commits its round score into its
total score and the round score resets to 0. -/
theorem resolve_scores_spec (g : GameState)
    (hnodup : (g.avatars.map (fun a => a.id)).Nodup)
    (j0 : ℕ) (hj0 : j0 < g.avatars.length)
    (halive : (g.avatars.get ⟨j0, hj0⟩).alive = true)
    (hothers : ∀ (k : ℕ) (hk : k < g.avatars.length), k ≠ j0 →
      (g.avatars.get ⟨k, hk⟩).alive = false) :
    (gameResolveScores g).roundWinnerId = some ((g.avatars.get ⟨j0, hj0⟩).id) ∧
    (gameResolveScores g).avatars.length = g.avatars.length ∧
    ∀ (k : ℕ) (hk : k < g.avatars.length)
        (hk2 : k < (gameResolveScores g).avatars.length),
      ((gameResolveScores g).avatars.get ⟨k, hk2⟩).roundScore = 0 ∧
      (k = j0 →
        ((gameResolveScores g).avatars.get ⟨k, hk2⟩).score
          = (g.avatars.get ⟨k, hk⟩).score + (g.avatars.get ⟨k, hk⟩).roundScore
            + max ((g.avatars.length : ℤ) - 1) 1) ∧
      (k ≠ j0 →
        ((gameResolveScores g).avatars.get ⟨k, hk2⟩).score
          = (g.avatars.get ⟨k, hk⟩).score + (g.avatars.get ⟨k, hk⟩).roundScore) := by
  have hw := winner_eq g.avatars j0 hj0 halive hothers
  have hres : gameResolveScores g =
      { g with
        avatars := (g.avatars.map (fun a =>
          if a.id = (g.avatars.get ⟨j0, hj0⟩).id then
            addScore (max ((g.avatars.length : ℤ) - 1) 1) a
          else a)).map resolveScore
        roundWinnerId := some (g.avatars.get ⟨j0, hj0⟩).id } := by
    rw [gameResolveScores]
    rw [hw]
  refine ⟨by rw [hres], by rw [hres]; simp, ?_⟩
  intro k hk hk2
  have hget : (gameResolveScores g).avatars.get ⟨k, hk2⟩
      = resolveScore (if (g.avatars.get ⟨k, hk⟩).id = (g.avatars.get ⟨j0, hj0⟩).id then
          addScore (max ((g.avatars.length : ℤ) - 1) 1) (g.avatars.get ⟨k, hk⟩)
        else g.avatars.get ⟨k, hk⟩) := by
    have hAv : (gameResolveScores g).avatars
        = (g.avatars.map (fun a =>
            if a.id = (g.avatars.get ⟨j0, hj0⟩).id then
              addScore (max ((g.avatars.length : ℤ) - 1) 1) a
            else a)).map resolveScore := by
      rw [hres]
    rw [List.get_of_eq hAv ⟨k, hk2⟩]
    rw [List.get_map, List.get_map]
  refine ⟨?_, ?_, ?_⟩
  · rw [hget]
    split_ifs <;> rfl
  · intro hkj
    subst hkj
    rw [hget, if_pos rfl]
    show (g.avatars.get ⟨k, hk⟩).score
        + ((g.avatars.get ⟨k, hk⟩).roundScore + max ((g.avatars.length : ℤ) - 1) 1) = _
    ring
  · intro hkj
    have hne : (g.avatars.get ⟨k, hk⟩).id ≠ (g.avatars.get ⟨j0, hj0⟩).id := by
      intro heq
      exact hkj (id_injective g.avatars hnodup k j0 hk hj0 heq)
    rw [hget, if_neg hne]
    rfl

/-- C4, witness: a two-player game where only the second avatar survives;
it is marked winner and awarded `max(2 − 1, 1) = 1`. -/
theorem resolve_scores_spec_witness :
    ((([{ initAvatar 1 "#a" with alive := false },
        initAvatar 2 "#b"] : List AvatarState).map (fun a => a.id)).Nodup ∧
      (([{ initAvatar 1 "#a" with alive := false },
        initAvatar 2 "#b"] : List AvatarState).get ⟨1, by decide⟩).alive = true) ∧
    (gameResolveScores
        ⟨[{ initAvatar 1 "#a" with alive := false }, initAvatar 2 "#b"],
          [1], false, true, none, false, 100⟩).roundWinnerId = some 2 ∧
    (gameResolveScores
        ⟨[{ initAvatar 1 "#a" with alive := false }, initAvatar 2 "#b"],
          [1], false, true, none, false, 100⟩).avatars.map
      (fun a => (a.score, a.roundScore)) = [(0, 0), (1, 0)] := by
  have h := resolve_scores_spec
    ⟨[{ initAvatar 1 "#a" with alive := false }, initAvatar 2 "#b"],
      [1], false, true, none, false, 100⟩
    (by decide) 1 (by decide) (by decide)
    (by
      intro k hk hkj
      have hk01 : k = 0 := by
        simp only [List.length_cons, List.length_nil] at hk
        omega
      subst hk01
      rfl)
  refine ⟨⟨by decide, by decide⟩, ?_, by decide⟩
  exact h.1

/-! ## Score monotonicity (C5) -/

/-- `BaseAvatar.set_printing`, restricted to the fields modelled here
(trail clearing only touches the trail). -/
def setPrinting (b : Bool) (a : AvatarState) : AvatarState :=
  { a with printing := b }

/-- `set_velocity` touches only kinematic fields. -/
theorem setVelocity_fields (cosF sinF logF : ℚ → ℚ) (v : ℚ) (a : AvatarState) :
    (setVelocity cosF sinF logF v a).roundScore = a.roundScore ∧
    (setVelocity cosF sinF logF v a).score = a.score := by
  simp only [setVelocity, updateVelocities, updateBaseAngularVelocity,
    updateAngularVelocityAuto, updateAngularVelocityFactor, setAngularVelocity]
  split_ifs <;> simp

/-- `set_inverse` touches only kinematic fields. -/
theorem setInverse_fields (b : Bool) (a : AvatarState) :
    (setInverse b a).roundScore = a.roundScore ∧ (setInverse b a).score = a.score := by
  simp only [setInverse, updateAngularVelocityAuto, updateAngularVelocityFactor,
    setAngularVelocity]
  split_ifs <;> simp

/-- No bonus-stack property application writes the scores. -/
theorem applyProp_scoreFields (cosF sinF logF pow2F : ℚ → ℚ) (a : AvatarState)
    (p : BonusProp) (v : BVal) :
    (applyProp cosF sinF logF pow2F a p v).roundScore = a.roundScore ∧
    (applyProp cosF sinF logF pow2F a p v).score = a.score := by
  cases p with
  | velocity => exact setVelocity_fields cosF sinF logF _ a
  | inverse => exact setInverse_fields _ a
  | radius => exact ⟨rfl, rfl⟩
  | invincible => exact ⟨rfl, rfl⟩
  | printing =>
    rw [applyProp]
    split_ifs <;> exact ⟨rfl, rfl⟩
  | color => exact ⟨rfl, rfl⟩
  | directionInLoop => exact ⟨rfl, rfl⟩
  | angularVelocityBase => exact ⟨rfl, rfl⟩

/-- Applying a whole property dictionary never writes the scores. -/
theorem foldl_applyProp_scoreFields (cosF sinF logF pow2F : ℚ → ℚ) :
    ∀ (ps : List (BonusProp × BVal)) (a : AvatarState),
      (ps.foldl (fun st e => applyProp cosF sinF logF pow2F st e.1 e.2) a).roundScore
        = a.roundScore ∧
      (ps.foldl (fun st e => applyProp cosF sinF logF pow2F st e.1 e.2) a).score
        = a.score := by
  intro ps
  induction ps with
  | nil => exact fun a => ⟨rfl, rfl⟩
  | cons e rest ih =>
    intro a
    obtain ⟨h1, h2⟩ := applyProp_scoreFields cosF sinF logF pow2F a e.1 e.2
    obtain ⟨h3, h4⟩ := ih (applyProp cosF sinF logF pow2F a e.1 e.2)
    exact ⟨h3.trans h1, h4.trans h2⟩

/-- `BaseBonusStack.resolve` never writes the scores. -/
theorem resolveStack_scoreFields (cosF sinF logF pow2F : ℚ → ℚ)
    (removed : Option BonusE) (stack : List BonusE) (a : AvatarState) :
    (resolveStack cosF sinF logF pow2F removed stack a).roundScore = a.roundScore ∧
    (resolveStack cosF sinF logF pow2F removed stack a).score = a.score :=
  foldl_applyProp_scoreFields cosF sinF logF pow2F _ a

/-- One mutation of an avatar, as the code can perform it: steering and
kinematics, death, the two score credits (the kill credit is a
`deaths.count`, hence a natural number; the winner award is
`max(playerCount − 1, 1)`), the round-end commit, the round reset, and
bonus-stack changes. -/
inductive AvatarStep : AvatarState → AvatarState → Prop where
  | stepPosition (px py : ℚ) (a : AvatarState) : AvatarStep a (setPosition px py a)
  | stepAngle (c s l : ℚ → ℚ) (t : ℚ) (a : AvatarState) :
      AvatarStep a (setAngle c s l t a)
  | stepAngularVelocity (w : ℚ) (a : AvatarState) :
      AvatarStep a (setAngularVelocity w a)
  | stepVelocity (c s l : ℚ → ℚ) (v : ℚ) (a : AvatarState) :
      AvatarStep a (setVelocity c s l v a)
  | stepRadius (r : ℚ) (a : AvatarState) : AvatarStep a (setRadius r a)
  | stepInverse (b : Bool) (a : AvatarState) : AvatarStep a (setInverse b a)
  | stepInvincible (b : Bool) (a : AvatarState) : AvatarStep a (setInvincible b a)
  | stepColor (col : String) (a : AvatarState) : AvatarStep a (setColor col a)
  | stepPrinting (b : Bool) (a : AvatarState) : AvatarStep a (setPrinting b a)
  | stepUpdate (c s l : ℚ → ℚ) (step : ℚ) (a : AvatarState) :
      AvatarStep a (avatarUpdate c s l step a)
  | stepDie (a : AvatarState) : AvatarStep a (dieAvatar a)
  | stepKill (sc : ℕ) (a : AvatarState) : AvatarStep a (killAvatar (sc : ℤ) a)
  | stepAward (n : ℕ) (a : AvatarState) :
      AvatarStep a (addScore (max ((n : ℤ) - 1) 1) a)
  | stepCommit (a : AvatarState) : AvatarStep a (resolveScore a)
  | stepClear (a : AvatarState) : AvatarStep a (clearAvatar a)
  | stepStackAdd (c s l p : ℚ → ℚ) (b : BonusE) (st : List BonusE) (a : AvatarState) :
      AvatarStep a (stackAdd c s l p b st a).2
  | stepStackRemove (c s l p : ℚ → ℚ) (b : BonusE) (st : List BonusE) (a : AvatarState) :
      AvatarStep a (stackRemove c s l p b st a).2

/-- Single-step monotonicity: no avatar mutation lowers the total score,
and the round score stays nonnegative. -/
theorem avatarStep_mono (a b : AvatarState) (hstep : AvatarStep a b)
    (hrs : 0 ≤ a.roundScore) : a.score ≤ b.score ∧ 0 ≤ b.roundScore := by
  cases hstep with
  | stepPosition px py a => exact ⟨le_refl _, hrs⟩
  | stepAngle c s l t a =>
    obtain ⟨h1, h2, _, _⟩ := setAngle_fields c s l t a
    rw [h1, h2]
    exact ⟨le_refl _, hrs⟩
  | stepAngularVelocity w a => exact ⟨le_refl _, hrs⟩
  | stepVelocity c s l v a =>
    obtain ⟨h1, h2⟩ := setVelocity_fields c s l v a
    rw [h1, h2]
    exact ⟨le_refl _, hrs⟩
  | stepRadius r a => exact ⟨le_refl _, hrs⟩
  | stepInverse b a =>
    obtain ⟨h1, h2⟩ := setInverse_fields b a
    rw [h1, h2]
    exact ⟨le_refl _, hrs⟩
  | stepInvincible b a => exact ⟨le_refl _, hrs⟩
  | stepColor col a => exact ⟨le_refl _, hrs⟩
  | stepPrinting b a => exact ⟨le_refl _, hrs⟩
  | stepUpdate c s l step a =>
    obtain ⟨_, h2, h3, _, _⟩ := avatarUpdate_fields c s l step a
    rw [h2, h3]
    exact ⟨le_refl _, hrs⟩
  | stepDie a => exact ⟨le_refl _, hrs⟩
  | stepKill sc a =>
    obtain ⟨_, h2, h3, _⟩ := killAvatar_fields (sc : ℤ) a
    rw [h2, h3]
    exact ⟨le_refl _, by positivity⟩
  | stepAward n a =>
    refine ⟨le_refl _, ?_⟩
    show 0 ≤ a.roundScore + max ((n : ℤ) - 1) 1
    have : (1 : ℤ) ≤ max ((n : ℤ) - 1) 1 := le_max_right _ _
    omega
  | stepCommit a =>
    show a.score ≤ a.score + a.roundScore ∧ (0 : ℤ) ≤ 0
    omega
  | stepClear a => exact ⟨le_refl _, le_refl _⟩
  | stepStackAdd c s l p b st a =>
    rw [stackAdd]
    split_ifs
    · exact ⟨le_refl _, hrs⟩
    · obtain ⟨h1, h2⟩ := resolveStack_scoreFields c s l p none (st ++ [b]) a
      show a.score ≤ (resolveStack c s l p none (st ++ [b]) a).score ∧ _
      rw [h1, h2]
      exact ⟨le_refl _, hrs⟩
  | stepStackRemove c s l p b st a =>
    rw [stackRemove]
    split_ifs
    · obtain ⟨h1, h2⟩ := resolveStack_scoreFields c s l p (some b)
        (st.filter (fun x => x.id ≠ b.id)) a
      show a.score ≤ (resolveStack c s l p (some b)
        (st.filter (fun x => x.id ≠ b.id)) a).score ∧ _
      rw [h1, h2]
      exact ⟨le_refl _, hrs⟩
    · exact ⟨le_refl _, hrs⟩

/-- C5, amended.  The total score never decreases — across a single
mutation and across any mutation sequence — as long as round scores stay
nonnegative (which every mutation also guarantees); and a nonzero round
score is zeroed only by the round-end commit (`resolve_score`) or the
round-start reset (`clear`), not by any other operation. -/
theorem score_monotonic (a b : AvatarState) :
    (AvatarStep a b → 0 ≤ a.roundScore → a.score ≤ b.score ∧ 0 ≤ b.roundScore) ∧
    (Relation.ReflTransGen AvatarStep a b → 0 ≤ a.roundScore →
      a.score ≤ b.score ∧ 0 ≤ b.roundScore) ∧
    (AvatarStep a b → 0 ≤ a.roundScore → a.roundScore ≠ 0 → b.roundScore = 0 →
      b = resolveScore a ∨ b = clearAvatar a) := by
  refine ⟨avatarStep_mono a b, ?_, ?_⟩
  · intro hseq
    induction hseq with
    | refl => exact fun h => ⟨le_refl _, h⟩
    | tail hcd hstep ih =>
      intro h0
      obtain ⟨ih1, ih2⟩ := ih h0
      obtain ⟨h1, h2⟩ := avatarStep_mono _ _ hstep ih2
      exact ⟨le_trans ih1 h1, h2⟩
  · intro hstep hrs hne hzero
    cases hstep with
    | stepPosition px py a => exact absurd hzero hne
    | stepAngle c s l t a =>
      rw [(setAngle_fields c s l t a).1] at hzero
      exact absurd hzero hne
    | stepAngularVelocity w a => exact absurd hzero hne
    | stepVelocity c s l v a =>
      rw [(setVelocity_fields c s l v a).1] at hzero
      exact absurd hzero hne
    | stepRadius r a => exact absurd hzero hne
    | stepInverse b a =>
      rw [(setInverse_fields b a).1] at hzero
      exact absurd hzero hne
    | stepInvincible b a => exact absurd hzero hne
    | stepColor col a => exact absurd hzero hne
    | stepPrinting b a => exact absurd hzero hne
    | stepUpdate c s l step a =>
      rw [(avatarUpdate_fields c s l step a).2.1] at hzero
      exact absurd hzero hne
    | stepDie a => exact absurd hzero hne
    | stepKill sc a =>
      rw [(killAvatar_fields (sc : ℤ) a).2.1] at hzero
      have : (0 : ℤ) ≤ (sc : ℤ) := by positivity
      omega
    | stepAward n a =>
      have hone : (1 : ℤ) ≤ max ((n : ℤ) - 1) 1 := le_max_right _ _
      have : a.roundScore + max ((n : ℤ) - 1) 1 = 0 := hzero
      omega
    | stepCommit a => exact Or.inl rfl
    | stepClear a => exact Or.inr rfl
    | stepStackAdd c s l p b st a =>
      have hrw : (stackAdd c s l p b st a).2.roundScore = a.roundScore := by
        rw [stackAdd]
        split_ifs
        · rfl
        · exact (resolveStack_scoreFields c s l p none (st ++ [b]) a).1
      rw [hrw] at hzero
      exact absurd hzero hne
    | stepStackRemove c s l p b st a =>
      have hrw : (stackRemove c s l p b st a).2.roundScore = a.roundScore := by
        rw [stackRemove]
        split_ifs
        · exact (resolveStack_scoreFields c s l p (some b) _ a).1
        · rfl
      rw [hrw] at hzero
      exact absurd hzero hne

/-- C5, counterexample.  The round-*end* transition (`end_round`, which
runs `resolve_scores` and hence `resolve_score` on every avatar) also
resets a nonzero round score to 0 — here a surviving avatar with round
score 1 ends the round with round score 0 (committed into its total) —
refuting "roundScore resets only at round start". -/
theorem score_monotonic_counterexample :
    (⟨[{ initAvatar 1 "#a" with roundScore := 1 }], [], false, true, none, true, 100⟩
        : GameState).inRound = true ∧
    (⟨[{ initAvatar 1 "#a" with roundScore := 1 }], [], false, true, none, true, 100⟩
        : GameState).avatars.map (fun a => a.roundScore) = [1] ∧
    (endRound ⟨[{ initAvatar 1 "#a" with roundScore := 1 }], [], false, true, none,
        true, 100⟩).avatars.map (fun a => a.roundScore) = [0] ∧
    (endRound ⟨[{ initAvatar 1 "#a" with roundScore := 1 }], [], false, true, none,
        true, 100⟩).inRound = false := by
  refine ⟨rfl, by decide, by decide, rfl⟩

/-- C5, witness: the monotonicity and reset characterisation applied to
the round-end commit of an avatar with round score 1. -/
theorem score_monotonic_witness :
    (AvatarStep { initAvatar 1 "#a" with roundScore := 1 }
        (resolveScore { initAvatar 1 "#a" with roundScore := 1 }) →
      0 ≤ ({ initAvatar 1 "#a" with roundScore := 1 } : AvatarState).roundScore →
      ({ initAvatar 1 "#a" with roundScore := 1 } : AvatarState).score
          ≤ (resolveScore { initAvatar 1 "#a" with roundScore := 1 }).score ∧
        0 ≤ (resolveScore { initAvatar 1 "#a" with roundScore := 1 }).roundScore) ∧
    (({ initAvatar 1 "#a" with roundScore := 1 } : AvatarState).score
        ≤ (resolveScore { initAvatar 1 "#a" with roundScore := 1 }).score ∧
      0 ≤ (resolveScore { initAvatar 1 "#a" with roundScore := 1 }).roundScore) ∧
    (resolveScore { initAvatar 1 "#a" with roundScore := 1 }
        = resolveScore { initAvatar 1 "#a" with roundScore := 1 } ∨
      resolveScore { initAvatar 1 "#a" with roundScore := 1 }
        = clearAvatar { initAvatar 1 "#a" with roundScore := 1 }) :=
  ⟨(score_monotonic _ _).1,
    (score_monotonic _ _).1 (AvatarStep.stepCommit _) (by decide),
    (score_monotonic _ _).2.2 (AvatarStep.stepCommit _) (by decide) (by decide)
      (by decide)⟩

end Modaltron
